import Mathlib

/-!
Verification development for the dukejia-bot repository: a shallow embedding
of the retrieval-augmented chatbot pipeline (chunking, cleaning, vector
retrieval with a confidence gate, session handling) together with theorems
settling the specification's claims against it.

Modelling conventions:
* JavaScript strings are modelled as Lean `String`/`List Char`; `.toLowerCase`
  is modelled on ASCII letters (the only cased characters the pipeline's
  inputs and tables use).
* Floating-point similarity scores are modelled as rationals; the cosine
  similarity computation itself (a float expression) is abstracted as a
  `sim` parameter of the retrieval model, since no claim depends on its
  numeric value, only on the ordering and thresholding of scores.
* `Math.random()` reply selection is modelled by an injected index, and
  `Date.now()` by an injected timestamp, as the spec's design notes direct.
-/

set_option maxHeartbeats 1000000

namespace Dukejia

/-- JavaScript's `\s` character class (the whitespace set used by `trim()`,
`split(/\s+/)` and the cleaners' allow-lists). -/
def jsIsSpace (c : Char) : Bool :=
  c.toNat == 32 || c.toNat == 9 || c.toNat == 10 || c.toNat == 11 || c.toNat == 12 ||
  c.toNat == 13 ||
  c.toNat == 0xA0 || c.toNat == 0x1680 ||
  (decide (0x2000 ≤ c.toNat) && decide (c.toNat ≤ 0x200A)) ||
  c.toNat == 0x2028 || c.toNat == 0x2029 || c.toNat == 0x202F || c.toNat == 0x205F ||
  c.toNat == 0x3000 || c.toNat == 0xFEFF

/-- JavaScript `String.prototype.trim()` on a character list. -/
def jsTrim (l : List Char) : List Char :=
  ((l.dropWhile jsIsSpace).reverse.dropWhile jsIsSpace).reverse

/-- JavaScript `String.prototype.trim()` on strings. -/
def jsTrimS (s : String) : String := String.mk (jsTrim s.toList)

/-- `chunkText` from `scripts/embed.mjs` (both copies in the file are
textually identical):

    function chunkText(text, size, overlap) {
      const chunks = [];
      let start = 0;
      while (start < text.length) {
        const end = Math.min(start + size, text.length);
        const chunk = text.slice(start, end).trim();
        if (chunk) chunks.push(chunk);
        if (end === text.length) break;
        start = Math.max(0, end - overlap);
      }
      return chunks;
    }

The loop is modelled with explicit fuel; with `overlap < size` (the only
configurations on which the JS loop terminates) `text.length + 1` steps
always suffice, since `start` strictly increases each iteration. -/
def chunkTextGo (text : List Char) (size overlap : Nat) : Nat → Nat → List (List Char)
  | 0, _ => []
  | fuel + 1, start =>
    if start < text.length then
      let e := min (start + size) text.length
      let chunk := jsTrim ((text.drop start).take (e - start))
      let rest := if e = text.length then [] else chunkTextGo text size overlap fuel (e - overlap)
      if chunk = [] then rest else chunk :: rest
    else []

/-- `chunkText` wrapped on `String`. -/
def chunkText (text : String) (size overlap : Nat) : List String :=
  (chunkTextGo text.toList size overlap (text.toList.length + 1) 0).map String.mk

/-- Worker for `splitWs`: `acc` holds the current (reversed) run of
non-whitespace characters. -/
def splitWsGo (acc : List Char) : List Char → List (List Char)
  | [] => if acc = [] then [] else [acc.reverse]
  | c :: rest =>
    if jsIsSpace c then
      if acc = [] then splitWsGo [] rest else acc.reverse :: splitWsGo [] rest
    else splitWsGo (c :: acc) rest

/-- `String.prototype.split(/\s+/)` followed by `.filter(Boolean)`: the
maximal whitespace-free runs of a character list, in order. -/
def splitWs (l : List Char) : List (List Char) := splitWsGo [] l

/-- `Array.prototype.join(" ")` on character lists. -/
def joinSp : List (List Char) → List Char
  | [] => []
  | [t] => t
  | t :: ts => t ++ ' ' :: joinSp ts

/-- `kept.join(" ")` on strings. -/
def joinTokens (toks : List String) : String := String.mk (joinSp (toks.map String.toList))

/-- `EN_STOPWORDS` (identical in `server.mjs`, both `scripts/embed.mjs`
variants and `api/health.mjs`): the template string split on whitespace. -/
def EN_STOPWORDS : List String :=
  ["a", "about", "above", "after", "again", "against", "all", "am", "an", "and", "any", "are",
   "aren't", "as", "at",
   "be", "because", "been", "before", "being", "below", "between", "both", "but", "by",
   "can't", "cannot", "could", "couldn't", "did", "didn't", "do", "does", "doesn't", "doing",
   "don't", "down", "during",
   "each", "few", "for", "from", "further",
   "had", "hadn't", "has", "hasn't", "have", "haven't", "having", "he", "he'd", "he'll", "he's",
   "her", "here", "here's", "hers", "herself", "him", "himself", "his", "how", "how's",
   "i", "i'd", "i'll", "i'm", "i've", "if", "in", "into", "is", "isn't", "it", "it's", "its",
   "itself",
   "let's",
   "me", "more", "most", "mustn't", "my", "myself",
   "no", "nor", "not", "of", "off", "on", "once", "only", "or", "other", "ought", "our", "ours",
   "ourselves", "out", "over", "own",
   "same", "shan't", "she", "she'd", "she'll", "she's", "should", "shouldn't", "so", "some",
   "such",
   "than", "that", "that's", "the", "their", "theirs", "them", "themselves", "then", "there",
   "there's", "these", "they", "they'd", "they'll", "they're", "they've", "this", "those",
   "through", "to", "too",
   "under", "until", "up", "very",
   "was", "wasn't", "we", "we'd", "we'll", "we're", "we've", "were", "weren't", "what", "what's",
   "when", "when's", "where", "where's", "which", "while", "who", "who's", "whom", "why",
   "why's", "with", "won't", "would", "wouldn't",
   "you", "you'd", "you'll", "you're", "you've", "your", "yours", "yourself", "yourselves"]

/-- `HINGLISH_STOPWORDS` (identical in `server.mjs` and `scripts/embed.mjs`). -/
def HINGLISH_STOPWORDS : List String :=
  ["hai", "hain", "ho", "hona", "hoga", "hogi", "honge", "hote", "hota", "thi", "tha", "the",
   "kya", "kyu", "kyun", "kyunki", "kisi", "kis", "kaun", "konsa", "kab", "kaha", "kahaan",
   "kaise",
   "nahi", "nahin", "na", "mat", "bas", "sirf", "bhi", "hi", "to", "tho", "ab", "abhi", "phir",
   "fir",
   "ye", "yeh", "vo", "woh", "aisa", "waisa", "jab", "tab", "agar", "lekin", "magar", "par",
   "per", "ya", "aur",
   "ka", "ki", "ke", "mein", "me", "mai", "mei", "mujhe", "mujhko", "hume", "humko", "tumhe",
   "aap", "ap", "hum", "tum",
   "se", "ko", "tak", "pe", "par", "liye", "ke", "liye",
   "kr", "kar", "karo", "karna", "karke", "krke", "krna", "ho gya", "hogaya", "chahiye",
   "chahie", "krdo", "kardo", "de", "do", "lo", "le", "dena", "lena"]

/-- `HINDI_STOPWORDS` (identical in `server.mjs` and `scripts/embed.mjs`). -/
def HINDI_STOPWORDS : List String :=
  ["है", "हैं", "हो", "होना", "होगा", "होगी", "होंगे", "होते", "होता", "था", "थी", "थे",
   "क्या", "क्यों", "क्योंकि", "किसी", "कौन", "कौनसा", "कब", "कहाँ", "कैसे",
   "नहीं", "मत", "बस", "सिर्फ", "भी", "ही", "तो", "अब", "अभी", "फिर",
   "यह", "ये", "वह", "वो", "जब", "तब", "अगर", "लेकिन", "मगर", "या", "और",
   "का", "की", "के", "में", "मे", "मुझे", "हमें", "तुम्हें", "आप", "हम", "तुम",
   "से", "को", "तक", "पर", "लिए", "चाहिए", "कर", "करो", "करना", "करके", "कर दें", "कर लो"]

/-- `PROTECTED_TOKENS` of `server.mjs` (lines 172-210), transcribed in source
order, duplicates included (a JS `Set` deduplicates; membership is the same). -/
def PROTECTED_TOKENS : List String :=
  ["hari", "chand", "anand", "anil", "hca", "duke", "duke-jia", "dukejia", "duki",
   "delhi", "india", "automation", "garment", "leather", "perforation", "embroidery",
   "quilting", "sewing",
   "pattern", "dst", "tajima", "servo", "36v",
   "duke", "duke-jia", "dukejia", "duki", "contact", "call", "email", "address", "Branches",
   "Headquarters",
   "Head Office", "Factory", "Works", "WhatsApp", "Whatsapp", "Whats app", "Phone", "Brand",
   "Brands", "names", "name", "features",
   "feature", "specification", "specifications", "specs", "model", "models", "type", "types",
   "descriptions", "description", "Appllications",
   "application", "Machine_id", "Machine ID", "ID", "needle", "niddle", "heads", "head",
   "speed", "rpm", "Embroidery Area", "phase", "phases",
   "delhi", "india", "bangladesh", "ethiopia",
   "automation", "solution", "solutions", "garment", "leather", "mattress", "perforation",
   "embroidery", "quilting", "sewing", "upholstery", "pattern",
   "sequin", "sequins", "bead", "beads", "cording", "coiling", "taping", "rhinestone",
   "chenille", "chainstitch", "cap", "tubular",
   "dahao", "a18", "dst", "tajima", "usb", "u-disk", "lcd", "touchscreen", "network",
   "auto-trimming", "automatic-trimming", "auto-color-change", "automatic-color-change",
   "thread-break-detection", "power-failure-recovery",
   "servo", "servo-motor", "36v", "36v-dc", "oil-mist", "dust-clean", "wide-voltage",
   "270-cap-frame",
   "es-1300", "es 1300", "dy pe750x600", "halo-100", "dy-601ctm", "dy sk d2-2.0rh", "dy-606",
   "dy-606h", "dy-606hc", "dy-606l", "dy-606xl",
   "dy-606s", "dy-606+1ct", "dy-606+1pd", "dy-602", "dy-602h", "dy-602hc", "dy-602l",
   "dy-602xl", "dy-602s", "dy-602+1ct", "dy-602+1pd",
   "dy 601ctm", "dy 606+6", "dy602+2", "dy-606+6", "dy 908", "dy 912", "dy 915-120",
   "dy 918-120", "dy 1201", "dy 1201l", "dy 1201h", "dy 1201xl", "dy 1201s",
   "dy-1201", "dy-1201l", "dy-1201h", "dy-1201xl", "dy-1201s", "dy Halo-100", "dy-1201+1ct",
   "dy-1201+1pd", "dy 1204", "dy 1206", "dy 1206h", "dy 1206hc", "dy-1204",
   "dy-1206", "dy-1206h", "dy-1206hc", "dy-1202h", "dy 1202h", "dy-1202", "dy-1202l",
   "dy-1202h", "dy-1202xl", "dy-1202s", "dy 918", "dy 915", "dy 1502", "dy-1502",
   "dy-1202hc", "dy-1203h", "dy-1204", "dy-1206", "dy-1206h", "dy-1502", "dy-908", "dy-912",
   "dy915-120", "dy918-120", "dy cs3000", "duke-single-head", "duke multi-head",
   "duke multi head", "duke multihead", "dukejia-single-head", "dukejia multi-head",
   "dukejia multi head", "dukejia multihead",
   "dy-cs3000", "dy-pe750x600", "dy-sk-d2-2.0rh"]

/-- `PROTECTED_TOKENS` of the second `scripts/embed.mjs` variant
(lines 430-455), transcribed in source order. -/
def PROTECTED_TOKENS_IDX : List String :=
  ["hari", "chand", "anand", "anil", "hca",
   "hari-chand-anand", "hari-chand-anand-&-co", "hari-chand-anand-and-co",
   "duke", "duke-jia", "dukejia", "duki", "contact", "call", "email", "address", "Branches",
   "Headquarters",
   "Head Office", "Factory", "Works", "Website", "WhatsApp", "Whatsapp", "Whats app", "Phone",
   "Brand", "Brands", "names", "name", "features", "feature", "specification",
   "specifications", "specs", "model", "models", "type", "types",
   "descriptions", "description", "Appllications", "application", "Machine_id", "Machine ID",
   "ID",
   "delhi", "india", "bangladesh", "ethiopia",
   "automation", "solution", "solutions", "garment", "leather", "mattress", "perforation",
   "embroidery", "quilting", "sewing", "upholstery", "pattern",
   "sequin", "sequins", "bead", "beads", "cording", "coiling", "taping", "rhinestone",
   "chenille", "chainstitch", "cap", "tubular",
   "dahao", "a18", "dst", "tajima", "usb", "u-disk", "lcd", "touchscreen", "network",
   "auto-trimming", "automatic-trimming", "auto-color-change", "automatic-color-change",
   "thread-break-detection", "power-failure-recovery",
   "servo", "servo-motor", "36v", "36v-dc", "oil-mist", "dust-clean", "wide-voltage",
   "270-cap-frame",
   "es-1300", "es 1300", "dy pe750x600", "halo-100", "dy-601ctm", "dy sk d2-2.0rh",
   "dy-606", "dy-606h", "dy-606hc", "dy-606l", "dy-606xl", "dy-606s", "dy-606+1ct",
   "dy-606+1pd",
   "dy-602", "dy-602h", "dy-602hc", "dy-602l", "dy-602xl", "dy-602s", "dy-602+1ct",
   "dy-602+1pd", "dy 601ctm",
   "dy 606+6", "dy602+2", "dy-606+6", "dy 908", "dy 912", "dy 915-120", "dy 918-120",
   "dy 1201", "dy 1201l", "dy 1201h", "dy 1201xl", "dy 1201s", "dy-1201", "dy-1201l",
   "dy-1201h", "dy-1201xl", "dy-1201s", "dy Halo-100",
   "dy-1201+1ct", "dy-1201+1pd", "dy 1204", "dy 1206", "dy 1206h", "dy 1206hc", "dy-1204",
   "dy-1206", "dy-1206h", "dy-1206hc",
   "dy-1202", "dy-1202l", "dy-1202h", "dy-1202xl", "dy-1202s", "dy 918", "dy 915",
   "dy 1502", "dy-1502", "dy-1202hc", "dy-1203h", "dy-1204", "dy-1206", "dy-1206h",
   "dy-1502", "dy-908", "dy-912", "dy915-120", "dy918-120", "dy cs3000",
   "duke-single-head", "duke multi-head", "duke multi head", "duke multihead",
   "dukejia-single-head", "dukejia multi-head", "dukejia multi head", "dukejia multihead",
   "dy-cs3000", "dy-pe750x600", "dy-sk-d2-2.0rh"]

/-- The character allow-list of `server.mjs`'s cleaner: the regex
`[^a-z0-9ऀ-ॿ\s-]` replaces everything NOT matching this predicate
by a space (97-122 = `a`-`z`, 48-57 = `0`-`9`, 0x900-0x97F = Devanagari,
45 = `-`). -/
def stripServerKeep (c : Char) : Bool :=
  (decide (97 ≤ c.toNat) && decide (c.toNat ≤ 122)) ||
  (decide (48 ≤ c.toNat) && decide (c.toNat ≤ 57)) ||
  (decide (0x900 ≤ c.toNat) && decide (c.toNat ≤ 0x97F)) ||
  jsIsSpace c || c.toNat == 45

/-- The character allow-list of the second `scripts/embed.mjs` variant
(`KEEP_REGEX = /[^a-z0-9ऀ-ॿ\s\.\,\+\/\-×°%"']/g`); 39 = the
apostrophe. -/
def stripIdxKeep (c : Char) : Bool :=
  (decide (97 ≤ c.toNat) && decide (c.toNat ≤ 122)) ||
  (decide (48 ≤ c.toNat) && decide (c.toNat ≤ 57)) ||
  (decide (0x900 ≤ c.toNat) && decide (c.toNat ≤ 0x97F)) ||
  jsIsSpace c ||
  c == '.' || c == ',' || c == '+' || c == '/' || c == '-' || c == '×' || c == '°' ||
  c == '%' || c == '"' || c.toNat == 39

/-- The token filter shared by both cleaners:

    if (PROTECTED.has(t)) return true;
    if (EN_STOPWORDS.has(t)) return false;
    if (HINGLISH_STOPWORDS.has(t)) return false;
    if (HINDI_STOPWORDS.has(t)) return false;
    return true;

parametrised by the protected set (the stopword tables are shared). -/
def keptToken (prot : List String) (t : String) : Bool :=
  if prot.contains t then true
  else if EN_STOPWORDS.contains t then false
  else if HINGLISH_STOPWORDS.contains t then false
  else if HINDI_STOPWORDS.contains t then false
  else true

/-- The shared shape of both cleaners up to the kept-token list:
lower-case, replace disallowed characters by spaces, split on whitespace
runs, drop empty tokens, filter through the protected/stopword tables. -/
def cleanTokensWith (keep : Char → Bool) (pred : String → Bool) (s : String) : List String :=
  ((splitWs ((s.toList.map Char.toLower).map fun c => if keep c then c else ' ')).map
    String.mk).filter pred

/-- `cleanForEmbedding` from `server.mjs` (lines 212-225): the query-side
cleaner, `kept.join(" ").trim()` with no degenerate-output fallback. -/
def cleanForEmbedding (s : String) : String :=
  if s = "" then ""
  else jsTrimS (joinTokens (cleanTokensWith stripServerKeep (keptToken PROTECTED_TOKENS) s))

/-- `normalizeWhitespace`'s middle replace, `/[ \t]+\n/g → "\n"`: `pending`
holds the current run of spaces/tabs (reversed); a run followed by a newline
is replaced by the newline alone. -/
def nwSqueezeGo : List Char → List Char → List Char
  | pending, [] => pending.reverse
  | pending, c :: rest =>
    if c == ' ' || c == '\t' then nwSqueezeGo (c :: pending) rest
    else if c == '\n' then '\n' :: nwSqueezeGo [] rest
    else pending.reverse ++ c :: nwSqueezeGo [] rest

/-- `normalizeWhitespace`'s last replace, `/\n{3,}/g → "\n\n"`: `n` counts
the pending newline run; runs of three or more collapse to two. -/
def nwCollapseGo : Nat → List Char → List Char
  | n, [] => List.replicate (if n ≥ 3 then 2 else n) '\n'
  | n, c :: rest =>
    if c == '\n' then nwCollapseGo (n + 1) rest
    else List.replicate (if n ≥ 3 then 2 else n) '\n' ++ c :: nwCollapseGo 0 rest

/-- `normalizeWhitespace` from the second `scripts/embed.mjs` variant:

    (s || "").replace(/\r/g, "").replace(/[ \t]+\n/g, "\n").replace(/\n{3,}/g, "\n\n")
-/
def normalizeWhitespace (l : List Char) : List Char :=
  nwCollapseGo 0 (nwSqueezeGo [] (l.filter (fun c => c != '\r')))

/-- `out.replace(/\s+/g, "").length`: the number of non-whitespace characters. -/
def countNonSpace (s : String) : Nat := (s.toList.filter (fun c => !jsIsSpace c)).length

/-- `cleanForEmbedding` from the second `scripts/embed.mjs` variant
(lines 460-478): the indexing-side cleaner. When the cleaned result has
fewer than 16 non-space characters it falls back to the lightly
whitespace-normalized lower-cased original, truncated to 4000 characters
(`.slice(0, 4000)`; code-unit vs character truncation only differs beyond
the basic multilingual plane). -/
def cleanForEmbeddingIdx (s : String) : String :=
  if s = "" then ""
  else
    let lower := s.toList.map Char.toLower
    let out := jsTrimS (joinTokens (cleanTokensWith stripIdxKeep (keptToken PROTECTED_TOKENS_IDX) s))
    if countNonSpace out < 16 then String.mk ((normalizeWhitespace lower).take 4000) else out

/-- Substring containment (`String.prototype.includes`) on character lists. -/
def containsSub (sub : List Char) : List Char → Bool
  | [] => sub.isEmpty
  | l@(_ :: rest) => sub.isPrefixOf l || containsSub sub rest

/-- A conversation turn: `{ role, content, ts: Date.now() }`. -/
structure Turn where
  role : String
  content : String
  ts : Nat
deriving Repr, DecidableEq

/-- A session record of `server.mjs`:
`{ history: [], createdAt, lastSeen, hits }`. -/
structure Session where
  history : List Turn
  createdAt : Nat
  lastSeen : Nat
  hits : Nat
deriving Repr, DecidableEq

/-- The `app.post("/api/reset")` handler body of `server.mjs` (lines
365-368): `req.session.history = [];` — the store-level reset operation on
the session the middleware resolved. -/
def resetSession (s : Session) : Session := { s with history := [] }

/-- The serverless reset of `api/reset.js` (lines 40-51):
`SESSIONS.delete(String(sid))` on the shared session map, modelled as an
association list keyed by session id. -/
def serverlessReset (store : List (String × Session)) (sid : String) :
    List (String × Session) :=
  store.filter fun p => p.1 != sid

/-- The serverless session read-back of `api/session.mjs`:
`sess = SESSIONS.get(sid) || {}`, answering
`(historyLength, createdAt: sess.createdAt || null, hits: sess.hits || 0)`
(`||` maps an absent record — and a zero `createdAt` — to `null`/`0`). -/
def serverlessSessionRead (store : List (String × Session)) (sid : String) :
    Nat × Option Nat × Nat :=
  match store.lookup sid with
  | some sess =>
    (sess.history.length, if sess.createdAt = 0 then none else some sess.createdAt, sess.hits)
  | none => (0, none, 0)

/-- An index entry (one element of `vectors` in `data/index.json`, as built
by `scripts/embed.mjs` and consumed by `server.mjs`). Embedding components
are modelled as rationals. -/
structure IndexEntry where
  id : Nat
  source : String
  kind : String
  chunk_index : Nat
  text_original : String
  text_cleaned : String
  embedding : List ℚ
deriving Repr, DecidableEq

/-- The parsed shape of the persisted index file, as far as `loadVectors`
inspects it (`raw?.vectors` may be absent). -/
structure IndexFileRaw where
  vectors : Option (List IndexEntry)
deriving Repr, DecidableEq

/-- The state of `data/index.json` as observed by `loadVectors`: missing
(`fs.existsSync` false), present but unreadable or unparsable
(`fs.readFileSync`/`JSON.parse` throws), or parsed. -/
inductive DiskIndex
  | missing
  | unparsable
  | parsed (raw : IndexFileRaw)
deriving Repr, DecidableEq

/-- The failure modes of `loadVectors`. -/
inductive LoadErr
  | notFound
  | parseFailed
  | noVectors
deriving Repr, DecidableEq

/-- `loadVectors()` from `server.mjs` (lines 234-239): throw if the file is
missing, if parsing throws, or if `!raw?.vectors?.length`; otherwise return
`raw.vectors`. -/
def loadVectors (disk : DiskIndex) : Except LoadErr (List IndexEntry) :=
  match disk with
  | .missing => .error .notFound
  | .unparsable => .error .parseFailed
  | .parsed raw =>
    match raw.vectors with
    | none => .error .noVectors
    | some [] => .error .noVectors
    | some (v :: vs) => .ok (v :: vs)

/-- The `fs.watch` reload callback of `server.mjs` (lines 243-248):
`try { VECTORS = loadVectors(); } catch { /* warn, keep previous */ }` —
a single wholesale reassignment of the in-memory reference on success. -/
def reloadCallback (disk : DiskIndex) (current : List IndexEntry) : List IndexEntry :=
  match loadVectors disk with
  | .ok vs => vs
  | .error _ => current

/-- A chunk record accumulated by the build script's chunking phase
(`allChunks.push({ source, kind, chunk_index, text_original })`). -/
structure Chunk where
  source : String
  kind : String
  chunk_index : Nat
  text_original : String
deriving Repr, DecidableEq

/-- The per-chunk embedding request text of the second `embed.mjs` variant
(lines 561-564):
`const c = cleanForEmbedding(b.text_original);`
`return c && c.trim() ? c : (normalizeWhitespace(b.text_original).slice(0, 4000) || " ");`. -/
def cleanedOfChunk (b : Chunk) : String :=
  let c := cleanForEmbeddingIdx b.text_original
  if c ≠ "" ∧ jsTrimS c ≠ "" then c
  else
    let n := String.mk ((normalizeWhitespace b.text_original.toList).take 4000)
    if n = "" then " " else n

/-- One batch's pushed vectors (second `embed.mjs` variant, lines 570-582):
`for j < emb.length: vectors.push({ id: i + j, ...batch[j] fields, text_cleaned: cleaned[j], embedding: emb[j].values })`,
modelled by the positional zip of the batch with its cleaned texts and
returned embeddings (the claim's precondition — exactly one embedding per
request, in request order — makes the three lists equal length). -/
def batchEntries (i : Nat) (batch : List Chunk) (cleaned : List String)
    (emb : List (List ℚ)) : List IndexEntry :=
  (batch.zip (cleaned.zip emb)).enum.map fun p =>
    { id := i + p.1, source := p.2.1.source, kind := p.2.1.kind,
      chunk_index := p.2.1.chunk_index, text_original := p.2.1.text_original,
      text_cleaned := p.2.2.1, embedding := p.2.2.2 }

/-- The build script's batched embedding loop (second `embed.mjs` variant,
lines 556-584): process `allChunks` in slices of 64, assigning ids `i + j`
across batches. `provider` models `embedder.batchEmbedContents` for one
batch (the embeddings list, in request order). Fuel-based: the loop
advances by 64 chunks per step, so `length + 1` steps always suffice. -/
def buildLoopGo (provider : List String → List (List ℚ)) :
    Nat → List Chunk → Nat → List IndexEntry
  | 0, _, _ => []
  | _ + 1, [], _ => []
  | fuel + 1, chunks@(_ :: _), i =>
    let batch := chunks.take 64
    let cleaned := batch.map cleanedOfChunk
    let emb := provider cleaned
    batchEntries i batch cleaned emb ++ buildLoopGo provider fuel (chunks.drop 64) (i + 64)

/-- The whole build loop: `for (let i = 0; i < allChunks.length; i += 64)`. -/
def buildVectors (provider : List String → List (List ℚ)) (allChunks : List Chunk) :
    List IndexEntry :=
  buildLoopGo provider (allChunks.length + 1) allChunks 0

/-- JavaScript `String.prototype.toLowerCase()` (ASCII range). -/
def toLowerS (s : String) : String := String.mk (s.toList.map Char.toLower)

/-- `scripts/prune-index.mjs` (lines 33-39): drop vectors whose lower-cased
`source` is in the removal set, then renumber the remaining ids densely:
`kept.forEach((v, i) => { v.id = i; })`. -/
def pruneVectors (sourcesToRemove : List String) (vectors : List IndexEntry) :
    List IndexEntry :=
  let removeSet := sourcesToRemove.map fun s => toLowerS (jsTrimS s)
  let kept := vectors.filter fun v => !(removeSet.contains (toLowerS v.source))
  kept.enum.map fun p => { p.2 with id := p.1 }

/-! ### The `/api/ask` pipeline: classifier, small talk, pointwise rendering -/

/-- The Hinglish token list of `detectResponseMode` (`server.mjs` lines
123-127). -/
def HINGLISH_TOKENS : List String :=
  ["hai", "hain", "tha", "thi", "the", "kya", "kyu", "kyun", "kyunki", "kisi", "kis", "kaun",
   "kab", "kaha", "kahaan", "kaise",
   "nahi", "nahin", "ka", "ki", "ke", "mein", "me", "mai", "mei", "hum", "ap", "aap", "tum",
   "kr", "kar", "karo", "karna", "chahiye",
   "bhi", "sirf", "jaldi", "kitna", "ho", "hoga", "hogaya", "krdo", "pls", "plz", "yaar",
   "shukriya", "dhanyavaad", "dhanyavad"]

/-- One whole-word hit of `detectResponseMode`:
`text.includes(" t ") || text.startsWith(t + " ") || text.endsWith(" " + t) || text === t`. -/
def wordHit (text : List Char) (t : String) : Bool :=
  containsSub (' ' :: (t.toList ++ [' '])) text || (t.toList ++ [' ']).isPrefixOf text ||
  (' ' :: t.toList).isSuffixOf text || text == t.toList

/-- The chat-cue character class `[:)(!?]`. -/
def cueClass (c : Char) : Bool :=
  c == ':' || c == ')' || c == '(' || c == '!' || c == '?'

/-- Two adjacent chat-cue characters exist (a `[:)(!?]{2,}` match exists). -/
def hasCueRun2 : List Char → Bool
  | c :: d :: rest => (cueClass c && cueClass d) || hasCueRun2 (d :: rest)
  | _ => false

/-- Three adjacent dots exist (a `\.{3,}` match exists). -/
def hasDotRun3 : List Char → Bool
  | '.' :: '.' :: '.' :: _ => true
  | _ :: rest => hasDotRun3 rest
  | [] => false

/-- `(text.match(/[:)(!?]{2,}|\.{3,}|😂|👍|🙏/g) || []).length >= 1`: only
the existence of a chat cue is used (the count feeds `score += cues >= 1 ?
0.5 : 0`), so the model decides existence directly. The emoji, surrogate
pairs in JS, are single scalars here; presence is equivalent. -/
def hasChatCue (l : List Char) : Bool :=
  hasCueRun2 l || hasDotRun3 l || l.contains '😂' || l.contains '👍' || l.contains '🙏'

/-- `detectResponseMode(q)` (`server.mjs` lines 120-135): Devanagari forces
"hinglish"; otherwise whole-word Hinglish token hits score 1 each and a
chat cue adds 0.5, with "hinglish" iff the score reaches 2 (modelled with
the doubled integer score: `2*hits + cueBonus ≥ 4`). -/
def detectResponseMode (q : String) : String :=
  let text := q.toList.map Char.toLower
  if text.any (fun c => decide (0x900 ≤ c.toNat) && decide (c.toNat ≤ 0x97F)) then "hinglish"
  else
    let hits := (HINGLISH_TOKENS.filter (wordHit text)).length
    if 2 * hits + (if hasChatCue text then 1 else 0) ≥ 4 then "hinglish" else "english"

/-- JavaScript regex `\w` (word character): `[A-Za-z0-9_]`. -/
def isWordChar (c : Char) : Bool :=
  (decide (65 ≤ c.toNat) && decide (c.toNat ≤ 90)) ||
  (decide (97 ≤ c.toNat) && decide (c.toNat ≤ 122)) ||
  (decide (48 ≤ c.toNat) && decide (c.toNat ≤ 57)) || c == '_'

/-- `\b` after a match ending in a word character: end of input or a
non-word character next. -/
def wbAfterWord : List Char → Bool
  | [] => true
  | c :: _ => !isWordChar c

/-- `\b` after a match ending in a NON-word character (the emoji patterns):
JS then requires a word character next (no boundary at end of input). -/
def wbAfterNonWord : List Char → Bool
  | [] => false
  | c :: _ => isWordChar c

/-- Match a literal at the head, returning the rest. -/
def matchLit (pat : String) (l : List Char) : Option (List Char) :=
  if pat.toList.isPrefixOf l then some (l.drop pat.toList.length) else none

/-- Match a maximal nonempty run of characters from `cs` at the head. -/
def matchRunOf (cs : List Char) (l : List Char) : Option (List Char) :=
  match l with
  | c :: _ => if cs.contains c then some (l.dropWhile fun d => cs.contains d) else none
  | [] => none

/-- `^pat\b` for a literal ending in a word character. -/
def litWB (pat : String) (l : List Char) : Bool :=
  match matchLit pat l with
  | some r => wbAfterWord r
  | none => false

/-- `^pre[cs]+\b`: a literal then a maximal run (≥ 1) of class characters
(all word characters), then a boundary. Backtracking the greedy run cannot
help: a shortened run leaves a word character adjacent, refuting `\b`. -/
def runWB (pre : String) (cs : List Char) (l : List Char) : Bool :=
  match matchLit pre l with
  | some r =>
    match matchRunOf cs r with
    | some r2 => wbAfterWord r2
    | none => false
  | none => false

/-- `^a\s*b\b`. -/
def litWsLitWB (a b : String) (l : List Char) : Bool :=
  match matchLit a l with
  | some r => litWB b (r.dropWhile jsIsSpace)
  | none => false

/-- `^a\s*b\s*c\b`. -/
def litWsLit3WB (a b c : String) (l : List Char) : Bool :=
  match matchLit a l with
  | some r => litWsLitWB b c (r.dropWhile jsIsSpace)
  | none => false

/-- `^a\s*b\s*c\s*d\b`. -/
def litWsLit4WB (a b c d : String) (l : List Char) : Bool :=
  match matchLit a l with
  | some r => litWsLit3WB b c d (r.dropWhile jsIsSpace)
  | none => false

/-- `^e\b` for a single non-word (emoji) character. -/
def emojiWB (e : Char) (l : List Char) : Bool :=
  match l with
  | c :: rest => c == e && wbAfterNonWord rest
  | [] => false

/-- The `hello` pattern of `smallTalkMatch`:
`/^(hi+|h[iy]+|hello+|hey( there)?|hlo+|yo+|hola|namaste|namaskar|salaam|salam|👋|🙏)\b/i`. -/
def helloMatch (l : List Char) : Bool :=
  runWB "h" ['i'] l || runWB "h" ['i', 'y'] l || runWB "hell" ['o'] l ||
  litWB "hey there" l || litWB "hey" l || runWB "hl" ['o'] l || runWB "y" ['o'] l ||
  litWB "hola" l || litWB "namaste" l || litWB "namaskar" l || litWB "salaam" l ||
  litWB "salam" l || emojiWB '👋' l || emojiWB '🙏' l

/-- `/^(good\s*morning|gm)\b/i`. -/
def morningMatch (l : List Char) : Bool :=
  litWsLitWB "good" "morning" l || litWB "gm" l

/-- `/^(good\s*afternoon|ga)\b/i`. -/
def afternoonMatch (l : List Char) : Bool :=
  litWsLitWB "good" "afternoon" l || litWB "ga" l

/-- `/^(good\s*evening|ge)\b/i`. -/
def eveningMatch (l : List Char) : Bool :=
  litWsLitWB "good" "evening" l || litWB "ge" l

/-- `/^(ok+|okay+|okk+|hmm+|haan+|ha+|sure|done|great|nice|cool|perfect|thik|theek|fine)\b/i`. -/
def ackMatch (l : List Char) : Bool :=
  runWB "o" ['k'] l || runWB "oka" ['y'] l || runWB "ok" ['k'] l || runWB "hm" ['m'] l ||
  runWB "haa" ['n'] l || runWB "h" ['a'] l || litWB "sure" l || litWB "done" l ||
  litWB "great" l || litWB "nice" l || litWB "cool" l || litWB "perfect" l ||
  litWB "thik" l || litWB "theek" l || litWB "fine" l

/-- `much\s*(appreciated|thanks)\b`. -/
def muchWB (l : List Char) : Bool :=
  match matchLit "much" l with
  | some r => litWB "appreciated" (r.dropWhile jsIsSpace) || litWB "thanks" (r.dropWhile jsIsSpace)
  | none => false

/-- `/^(thanks|thank\s*you|thx|tnx|ty|much\s*(appreciated|thanks)|appreciate(d)?|shukriya|dhanyavaad|dhanyavad)\b/i`. -/
def thanksMatch (l : List Char) : Bool :=
  litWB "thanks" l || litWsLitWB "thank" "you" l || litWB "thx" l || litWB "tnx" l ||
  litWB "ty" l || muchWB l || litWB "appreciated" l || litWB "appreciate" l ||
  litWB "shukriya" l || litWB "dhanyavaad" l || litWB "dhanyavad" l

/-- `/^(bye|bb|good\s*bye|goodbye|see\s*ya|see\s*you|take\s*care|tc|ciao|gn)\b/i`. -/
def byeMatch (l : List Char) : Bool :=
  litWB "bye" l || litWB "bb" l || litWsLitWB "good" "bye" l || litWB "goodbye" l ||
  litWsLitWB "see" "ya" l || litWsLitWB "see" "you" l || litWsLitWB "take" "care" l ||
  litWB "tc" l || litWB "ciao" l || litWB "gn" l

/-- One alternative of the unanchored help pattern matching at this
position. -/
def helpAt (l : List Char) : Bool :=
  litWsLit3WB "who" "are" "you" l || litWsLit4WB "what" "can" "you" "do" l ||
  litWB "help" l || litWB "menu" l || litWB "options" l || litWsLit3WB "how" "to" "use" l

/-- `/(who\s*are\s*you|what\s*can\s*you\s*do|help|menu|options|how\s*to\s*use)\b/i`
(unanchored: search every position). -/
def helpMatch : List Char → Bool
  | [] => false
  | l@(_ :: rest) => helpAt l || helpMatch rest

/-- `smallTalkMatch(q)` (`server.mjs` lines 346-360): the ordered pattern
table, first match wins; `/i` is modelled by lower-casing the trimmed input
(all pattern literals are ASCII). -/
def smallTalkMatch (q : String) : Option String :=
  let t := (jsTrim q.toList).map Char.toLower
  if helloMatch t then some "hello"
  else if morningMatch t then some "morning"
  else if afternoonMatch t then some "afternoon"
  else if eveningMatch t then some "evening"
  else if ackMatch t then some "ack"
  else if thanksMatch t then some "thanks"
  else if byeMatch t then some "bye"
  else if helpMatch t then some "help"
  else none

/-- `pre` then the rest all equal to `c`, at least one (`pre c+` anchored at
both ends). -/
def fullRun (pre : String) (c : Char) (l : List Char) : Bool :=
  match matchLit pre l with
  | some r => !r.isEmpty && r.all fun d => d == c
  | none => false

/-- `isGreetingWord`:
`/^(hi+|hello+|hey( there)?|hlo+|namaste|namaskar|salaam|gm|ga|ge|👋|🙏)$/i`
on the trimmed question (lower-cased). -/
def isGreetingWord (l : List Char) : Bool :=
  fullRun "h" 'i' l || fullRun "hell" 'o' l || l == "hey".toList || l == "hey there".toList ||
  fullRun "hl" 'o' l || l == "namaste".toList || l == "namaskar".toList ||
  l == "salaam".toList || l == "gm".toList || l == "ga".toList || l == "ge".toList ||
  l == ['👋'] || l == ['🙏']

/-- `const isBlank = q.replace(/[?.!\s]/g, "") === "";`. -/
def isBlankOf (q : String) : Bool :=
  (q.toList.filter fun c => !(c == '?' || c == '.' || c == '!' || jsIsSpace c)).isEmpty

/-- `const short = q.toLowerCase().trim().replace(/[^a-z]/g, "");`. -/
def shortTokenOf (q : String) : String :=
  String.mk ((jsTrim (q.toList.map Char.toLower)).filter fun c =>
    decide (97 ≤ c.toNat) && decide (c.toNat ≤ 122))

/-- The single-token quick-path classifier (lines 406-420), in source
order: HELLO, BYE, THANKS, GM, GA, GE sets. -/
def quickKind (short : String) : Option String :=
  if short ∈ ["hi", "hey", "yo", "sup"] then some "hello"
  else if short ∈ ["bye", "bb", "ciao", "gn"] then some "bye"
  else if short ∈ ["ty", "thx", "tnx", "tx"] then some "thanks"
  else if short = "gm" then some "morning"
  else if short = "ga" then some "afternoon"
  else if short = "ge" then some "evening"
  else none

/-- The reply banks of `makeSmallTalkReply` (lines 282-344); the JS
`switch` falls back to the `hello` bank for unknown kinds. -/
def replyBank (mode kind : String) : List String :=
  if mode = "hinglish" then
    if kind = "morning" then ["Good morning! Aaj kis cheez mein help chahiye?"]
    else if kind = "afternoon" then ["Good afternoon! Duki ke baare mein kya jaana hai?"]
    else if kind = "evening" then ["Good evening! Machines/spares par madad chahiye to batayein."]
    else if kind = "thanks" then
      ["Shukriya! Aur kuch chahiye to pooch lijiye.",
       "Welcome ji! Brochure chahiye ya sales connect karu?"]
    else if kind = "bye" then
      ["Theek hai, milte hain! Jab chahein ping kar dijiyega.", "Bye! Din shubh rahe."]
    else if kind = "help" then
      ["Try: “Flagship features”, “Application-wise machine suggestion”, “Spares info”."]
    else if kind = "ack" then ["Thik hai! Ab kya puchhna hai?"]
    else ["Namaste 👋 Duki se related kya madad chahiye?",
          "Hello ji 👋 Main madad ke liye hoon—puchhiye."]
  else
    if kind = "morning" then ["Good morning! How can I help today?"]
    else if kind = "afternoon" then ["Good afternoon! How can I help today?"]
    else if kind = "evening" then ["Good evening! Need help with machines or spares?"]
    else if kind = "thanks" then
      ["You’re welcome! Anything else I can do?",
       "Happy to help! Need brochures or a sales connect?"]
    else if kind = "bye" then
      ["Take care! I’m here if you need me.", "Bye! Have a great day."]
    else if kind = "help" then
      ["Ask about flagship lines, suggestions by application, or spares."]
    else if kind = "ack" then ["Got it! What would you like next?"]
    else ["Hi! How can I help today?", "How can I help with Duki today?"]

/-- `pick = arr => arr[Math.floor(Math.random() * arr.length)]`, with the
random draw injected as an index (reduced modulo the bank size). -/
def pickReply (rnd : Nat) (arr : List String) : String :=
  arr.getD (rnd % arr.length) ""

/-- `makeSmallTalkReply(kind, mode)`. -/
def makeSmallTalkReply (rnd : Nat) (kind mode : String) : String :=
  pickReply rnd (replyBank mode kind)

/-- `buildMinimalAssist(mode)` (lines 79-81). -/
def buildMinimalAssist (mode : String) : String :=
  if mode = "hinglish" then "Kaise madad kar sakta hoon?" else "How can I assist you?"

/-- `const FRONTEND_GREETS = true;` (line 30). -/
def FRONTEND_GREETS : Bool := true

/-- ASCII digit. -/
def isDigitAscii (c : Char) : Bool := decide (48 ≤ c.toNat) && decide (c.toNat ≤ 57)

/-- ASCII capital letter. -/
def isUpperAscii (c : Char) : Bool := decide (65 ≤ c.toNat) && decide (c.toNat ≤ 90)

/-- `isListLike`'s pattern `^\s*([-*•]|\d+\.)\s+` tried at one line start
(leading `\s*` may greedily cross further newlines; later line starts are
tried separately, so only existence matters). -/
def isListLikeFrom (l : List Char) : Bool :=
  let r := l.dropWhile jsIsSpace
  match r with
  | c :: rest =>
    if c = '-' ∨ c = '*' ∨ c = '•' then
      match rest with
      | d :: _ => jsIsSpace d
      | [] => false
    else if (r.takeWhile isDigitAscii).isEmpty then false
    else
      match r.dropWhile isDigitAscii with
      | '.' :: rest2 =>
        match rest2 with
        | d :: _ => jsIsSpace d
        | [] => false
      | _ => false
  | [] => false

/-- JS multiline `^` anchors: after `\n`, `\r`, U+2028, U+2029. -/
def isLineTerm (c : Char) : Bool :=
  c == '\n' || c == '\r' || c.toNat == 0x2028 || c.toNat == 0x2029

/-- `isListLike(text)`: `/^\s*([-*•]|\d+\.)\s+/m.test(text)`. -/
def isListLikeGo : List Char → Bool
  | [] => false
  | c :: rest => (isLineTerm c && isListLikeFrom rest) || isListLikeGo rest

/-- `isListLike` over the whole text (position 0 and every line start). -/
def isListLike (l : List Char) : Bool := isListLikeFrom l || isListLikeGo l

/-- The lookahead class `[A-Z(0-9]` of the sentence-boundary delimiter. -/
def pwAheadClass (c : Char) : Bool := isUpperAscii c || c == '(' || isDigitAscii c

/-- The lookbehind class `[.!?]`. -/
def pwBehindClass (c : Char) : Bool := c == '.' || c == '!' || c == '?'

/-- Does one of `toPointWise`'s split delimiters
`\n{2,} | (?<=[.!?])\s+(?=[A-Z(0-9]) | [;•] | \s+-\s+` match at the position
whose previous character is `prev` and whose text is `c :: rest`?
Returns how many characters of `rest` the (greedy) delimiter consumes
beyond `c`. Alternatives are tried in the regex's order; a failing
sentence-boundary alternative falls through to the others. -/
def pwDelim (prev : Option Char) (c : Char) (rest : List Char) : Option Nat :=
  if c = '\n' ∧ rest.head? = some '\n' then
    some (rest.takeWhile fun d => d == '\n').length
  else
    let alt2 :=
      if prev.any pwBehindClass && jsIsSpace c then
        let k := (rest.takeWhile jsIsSpace).length
        match (rest.drop k).head? with
        | some d => if pwAheadClass d then some k else none
        | none => none
      else none
    match alt2 with
    | some k => some k
    | none =>
      if c = ';' ∨ c = '•' then some 0
      else if jsIsSpace c then
        match rest.dropWhile jsIsSpace with
        | '-' :: r2 =>
          let sp2 := r2.takeWhile jsIsSpace
          if sp2.isEmpty then none
          else some ((rest.takeWhile jsIsSpace).length + 1 + sp2.length)
        | _ => none
      else none

/-- The splitter of `toPointWise`: scan left to right, carrying the
previous character (for the lookbehind) and the current segment; a
delimiter match emits the segment. Fuel-based (`length + 1` always
suffices: every step consumes at least one character). -/
def pwSplitGo : Nat → Option Char → List Char → List Char → List (List Char)
  | _, _, acc, [] => [acc.reverse]
  | 0, _, acc, _ :: _ => [acc.reverse]
  | fuel + 1, prev, acc, c :: rest =>
    match pwDelim prev c rest with
    | some k =>
      let lastc := if k = 0 then c else rest.getD (k - 1) c
      acc.reverse :: pwSplitGo fuel (some lastc) [] (rest.drop k)
    | none => pwSplitGo fuel (some c) (c :: acc) rest

/-- `norm.split(/\n{2,}|(?<=[.!?])\s+(?=[A-Z(0-9])|[;•]|(?:\s+-\s+)/)`. -/
def pwSplit (l : List Char) : List (List Char) :=
  pwSplitGo (l.length + 1) none [] l

/-- `norm.split(/\n+/)`: split on single newlines (the empty segments a
`\n+` run would merge are dropped by the caller's `.filter(Boolean)`,
making the two readings equivalent). -/
def splitNLGo (acc : List Char) : List Char → List (List Char)
  | [] => [acc.reverse]
  | c :: rest => if c = '\n' then acc.reverse :: splitNLGo [] rest else splitNLGo (c :: acc) rest

/-- `p.replace(/^[•*\-]\s+/, "")`. -/
def stripBullet (p : List Char) : List Char :=
  match p with
  | c :: rest =>
    if (c == '•' || c == '*' || c == '-') && rest.head?.any jsIsSpace then
      rest.dropWhile jsIsSpace
    else p
  | [] => []

/-- Does `\s*\.\s*$` match starting exactly here (whitespace, one dot,
whitespace, end)? -/
def isDotTail (l : List Char) : Bool :=
  match l.dropWhile jsIsSpace with
  | '.' :: r => r.all jsIsSpace
  | _ => false

/-- `p.replace(/\s*\.\s*$/, "")`: cut at the leftmost position from which
`\s*\.\s*` runs to the end. -/
def stripDotTail : List Char → List Char
  | [] => []
  | l@(c :: rest) => if isDotTail l then [] else c :: stripDotTail rest

/-- `toPointWise(text)` (`server.mjs` lines 254-279): bulletize free text —
unless pointwise mode is off, the text is empty or already list-like; split
into parts at blank lines, sentence boundaries, `;`/`•`, or ` - `
separators; fall back to single newlines; give up below 2 parts; then strip
stray bullets and trailing dots and prefix `- `. -/
def toPointWise (pointwiseMode : Bool) (text : String) : String :=
  if !pointwiseMode then text
  else if text = "" ∨ isListLike text.toList then text
  else
    let norm := jsTrim (nwSqueezeGo [] (text.toList.filter fun c => c != '\r'))
    let parts0 := ((pwSplit norm).map jsTrim).filter fun p => !p.isEmpty
    let parts :=
      if parts0.length < 2 then
        let byLine := ((splitNLGo [] norm).map jsTrim).filter fun p => !p.isEmpty
        if byLine.length ≥ 2 then byLine else parts0
      else parts0
    if parts.length < 2 then text
    else String.mk (List.intercalate ['\n']
      (parts.map fun p => '-' :: ' ' :: stripDotTail (stripBullet p)))

/-! ### The `/api/ask` pipeline: retrieval, gate, handler -/

/-- `const MIN_OK_SCORE = 0.18;` (line 475). -/
def MIN_OK_SCORE : ℚ := 18 / 100

/-- A thrown provider error as the catch handler reads it: optional
`status`, `message`, `statusText` (JS `||` treats `0` and `""` as absent). -/
structure ProviderErr where
  status : Option Nat
  message : Option String
  statusText : Option String
deriving Repr, DecidableEq

/-- One `{ idx: i + 1, score }` element of the response's `citations`. -/
structure Citation where
  idx : Nat
  score : ℚ
deriving Repr, DecidableEq

/-- The observable responses of `/api/ask` (the duplicated `reply` field and
the constant `bot` field are omitted as redundant with `answer`). -/
inductive AskResponse
  | badRequest (error : String)
  | jsonOk (answer : String) (mode : String) (citations : List Citation)
  | jsonErr (status : Nat) (error : String)
deriving Repr, DecidableEq

/-- Provider calls made while handling one request, in order. -/
inductive AskEffect
  | embedCall (text : String)
  | generateCall (prompt : String)
deriving Repr, DecidableEq

/-- One handler run's outcome: the session as left in the store, the
provider calls made, and the response sent. -/
structure AskOutcome where
  session : Session
  effects : List AskEffect
  response : AskResponse
deriving Repr, DecidableEq

/-- Server configuration: `TOP_K` (default 6) and `POINTWISE_MODE`
(default true), both environment-driven in `server.mjs`. -/
structure AskConfig where
  topK : Nat := 6
  pointwiseMode : Bool := true
deriving Repr, DecidableEq

/-- JS `x || d` on an optional string (the empty string is falsy). -/
def jsOrStr (o : Option String) (d : String) : String :=
  match o with
  | some s => if s = "" then d else s
  | none => d

/-- The catch handler of `/api/ask` (lines 548-556):
`status = err?.status || 500; msg = err?.message || err?.statusText || "Generation failed"`. -/
def catchResponse (e : ProviderErr) : AskResponse :=
  .jsonErr (match e.status with | some s => if s = 0 then 500 else s | none => 500)
    (jsOrStr e.message (jsOrStr e.statusText "Generation failed"))

/-- The not-ready fallback for an empty vector store (lines 451-455). -/
def notReadyMsg (mode : String) : String :=
  if mode = "hinglish" then
    "Reference data abhi load nahi hai. Server par `npm run embed` chalayen, phir dobara poochhiye."
  else
    "Reference data isn’t loaded yet. Please run `npm run embed` on the server and try again."

/-- The low-confidence "be more specific" tip (lines 477-479). -/
def lowConfTip (mode : String) : String :=
  if mode = "hinglish" then
    "Mujhe is par kaafi specifics nahi mil pa rahe. Kripya thoda specific likhiye—jaise 'Dukejia E+P key features' ya 'Highlead 269 applications'."
  else
    "I couldn’t find enough details on that. Please try rephrasing or be more specific—like 'Dukejia E+P key features' or 'Highlead 269 applications'."

/-- `const cleanedQuery = cleanForEmbedding(q) || q.toLowerCase();` (line 462). -/
def cleanedQueryOf (q : String) : String :=
  let c := cleanForEmbedding q
  if c = "" then toLowerS q else c

/-- The retrieval of `/api/ask` (lines 470-473): score every stored vector
(`sim` models the float `cosineSim(qVec, v.embedding)` as a rational),
stable-sort by descending score (`.sort((a, b) => b.score - a.score)`,
stable per the JS spec, modelled by the stable `List.mergeSort`), and keep
the first `TOP_K`. -/
def retrieveTopK (sim : List ℚ → List ℚ → ℚ) (qVec : List ℚ) (vectors : List IndexEntry)
    (k : Nat) : List (IndexEntry × ℚ) :=
  ((vectors.map fun v => (v, sim qVec v.embedding)).mergeSort fun a b =>
    decide (b.2 ≤ a.2)).take k

/-- The confidence gate condition (line 476):
`scored.length === 0 || (scored?.[0]?.score ?? 0) < MIN_OK_SCORE`. -/
def gateLow (scored : List (IndexEntry × ℚ)) : Bool :=
  match scored with
  | [] => true
  | s :: _ => decide (s.2 < MIN_OK_SCORE)

/-- `languageGuide` (lines 491-494). -/
def languageGuide (mode : String) : String :=
  if mode = "hinglish" then "REPLY LANGUAGE: Hinglish (Hindi in Latin script)."
  else "REPLY LANGUAGE: English. Professional and concise."

/-- The trimmed `systemInstruction` template (lines 496-507). -/
def systemInstructionOf (botName mode : String) : String :=
  "You are " ++ botName ++
  ", Dukejia’s assistant. Answer STRICTLY and ONLY from the provided CONTEXT (the Dukejia knowledge base).\n" ++
  "If the answer is not present in the CONTEXT, reply exactly:\n" ++
  "\"Please contact our sales team at \nWhatsapp: +91 9350513789 \nEmbroidery@grouphca.com\"\n\n" ++
  "Rules:\n- Do not invent or add external knowledge.\n- Be concise and factual.\n- " ++
  languageGuide mode

/-- One context block's text:
`s.text_original || s.text_cleaned || s.text` — with both text fields empty
the absent `text` field renders as the literal `undefined` in the JS
template. -/
def contextBlockText (s : IndexEntry) : String :=
  if s.text_original ≠ "" then s.text_original
  else if s.text_cleaned ≠ "" then s.text_cleaned
  else "undefined"

/-- `contextBlocks` (lines 487-489): `【i+1】`-tagged blocks joined by blank
lines. -/
def contextBlocksOf (scored : List (IndexEntry × ℚ)) : String :=
  String.intercalate "\n\n"
    (scored.enum.map fun p => "【" ++ toString (p.1 + 1) ++ "】 " ++ contextBlockText p.2.1)

/-- The trimmed full prompt (lines 509-525). -/
def promptOf (botName mode q contextBlocks : String) : String :=
  systemInstructionOf botName mode ++ "\n\nQUESTION:\n" ++ q ++
  "\n\nCONTEXT (numbered blocks):\n" ++ contextBlocks ++
  "\n\nFormat:\n- Direct answer grounded in context.\n- If not found: “Please contact our sales team at \nWhatsapp: +91 9350513789 \nEmbroidery@grouphca.com\n”\n- Use the reply language specified above."

/-- The retrieval-augmented tail of `app.post("/api/ask")` (`server.mjs`
lines 450-556), entered when no small-talk branch matched: require vectors,
clean and embed the query, retrieve top-K behind the confidence gate, build
the grounded prompt, push the user turn, call the generator, push the
assistant turn, respond. `embed`/`generate` return `Except` to model thrown
provider errors (handled by the route's catch); `now` injects the
`Date.now()` stamps. -/
def askRag (cfg : AskConfig) (sim : List ℚ → List ℚ → ℚ)
    (embed : String → Except ProviderErr (List ℚ))
    (generate : String → Except ProviderErr String)
    (vectors : List IndexEntry) (q mode : String) (session : Session)
    (botName : String) (now : Nat) : AskOutcome :=
  if vectors.isEmpty then
    let fallback := notReadyMsg mode
    let final := if cfg.pointwiseMode then toPointWise cfg.pointwiseMode fallback else fallback
    { session := { session with history := session.history ++
        [⟨"user", q, now⟩, ⟨"assistant", final, now⟩] },
      effects := [], response := .jsonOk final mode [] }
  else
    let cleanedQuery := cleanedQueryOf q
    match embed cleanedQuery with
    | .error e =>
      { session := session, effects := [.embedCall cleanedQuery], response := catchResponse e }
    | .ok qVec =>
      let scored := retrieveTopK sim qVec vectors cfg.topK
      if gateLow scored then
        let tip := lowConfTip mode
        let finalTip := if cfg.pointwiseMode then toPointWise cfg.pointwiseMode tip else tip
        { session := { session with history := session.history ++
            [⟨"user", q, now⟩, ⟨"assistant", finalTip, now⟩] },
          effects := [.embedCall cleanedQuery], response := .jsonOk finalTip mode [] }
      else
        let prompt := promptOf botName mode q (contextBlocksOf scored)
        let session1 := { session with history := session.history ++ [⟨"user", q, now⟩] }
        match generate prompt with
        | .error e =>
          { session := session1, effects := [.embedCall cleanedQuery, .generateCall prompt],
            response := catchResponse e }
        | .ok text0 =>
          let text := if cfg.pointwiseMode then toPointWise cfg.pointwiseMode text0 else text0
          { session := { session1 with history := session1.history ++ [⟨"assistant", text, now⟩] },
            effects := [.embedCall cleanedQuery, .generateCall prompt],
            response := .jsonOk text mode (scored.enum.map fun p => ⟨p.1 + 1, p.2.2⟩) }

/-- The full `/api/ask` handler after the session middleware (`server.mjs`
lines 388-557). `bodyQuestion`/`bodyMessage` are the request body fields
(`question ?? message ?? ""`); `rnd` injects the `Math.random()` reply
pick. The two small-talk branches (quick path and regex path) have
identical bodies in the source and share `replyFor` here. -/
def askEndpoint (cfg : AskConfig) (sim : List ℚ → List ℚ → ℚ)
    (embed : String → Except ProviderErr (List ℚ))
    (generate : String → Except ProviderErr String)
    (vectors : List IndexEntry) (bodyQuestion bodyMessage : Option String)
    (session : Session) (botName : String) (rnd now : Nat) : AskOutcome :=
  let question := (bodyQuestion.or bodyMessage).getD ""
  if question = "" then
    { session := session, effects := [],
      response := .badRequest "Missing 'question' (or 'message') string" }
  else
    let q := jsTrimS question
    let mode := detectResponseMode q
    let isFirstTurn := session.history.isEmpty
    let shouldGreetFirstTurn :=
      isFirstTurn && (isBlankOf q || isGreetingWord ((jsTrim q.toList).map Char.toLower))
    let replyFor := fun (kind : String) =>
      if shouldGreetFirstTurn && FRONTEND_GREETS &&
          (kind == "hello" || kind == "morning" || kind == "afternoon" || kind == "evening") then
        buildMinimalAssist mode
      else makeSmallTalkReply rnd kind mode
    let smallTalkOutcome := fun (kind : String) =>
      let reply := replyFor kind
      let final := if cfg.pointwiseMode then toPointWise cfg.pointwiseMode reply else reply
      { session := { session with history := session.history ++
          [⟨"user", q, now⟩, ⟨"assistant", final, now⟩] },
        effects := [], response := AskResponse.jsonOk final mode [] : AskOutcome }
    match quickKind (shortTokenOf q) with
    | some kind => smallTalkOutcome kind
    | none =>
      match smallTalkMatch q with
      | some kind => smallTalkOutcome kind
      | none => askRag cfg sim embed generate vectors q mode session botName now

/-- The input validation of the serverless ask variant (the `api/ask.js`
ported handler in `api/health.mjs`, lines 398-406):
`q = (body.message ?? body.question ?? "").toString().trim()`,
`isFirstTurn = !!body.isFirstTurn`; an empty `q` without the first-turn
blank-greeting exception is rejected with HTTP 400 before any further
processing (`none` = the guard passes and the handler continues). -/
def serverlessAskGate (bodyMessage bodyQuestion : Option String) (isFirstTurn : Bool) :
    Option AskResponse :=
  let q := jsTrimS ((bodyMessage.or bodyQuestion).getD "")
  if q = "" ∧ ¬isFirstTurn then some (.badRequest "Missing 'message' or 'question'.")
  else none

/-- A sample index entry for concrete retrieval scenarios. -/
def sampleEntry (n : Nat) (e : List ℚ) : IndexEntry :=
  ⟨n, "knowledge.pdf", "pdf", n, "text", "text", e⟩

end Dukejia

namespace Dukejia

/-- C2 (counterexample): chunking the 26-character document "AB...Z" with
`chunkSize = 10`, `overlap = 2` does NOT produce four chunks of lengths
`[10, 10, 10, 2]` as the claim states: the loop breaks as soon as a window
reaches the end of the text, so only three windows are emitted. -/
theorem c2_counterexample :
    ¬ ((chunkText "ABCDEFGHIJKLMNOPQRSTUVWXYZ" 10 2).map String.length = [10, 10, 10, 2]) := by
  decide

/-- C2 (amended): chunking "AB...Z" (26 chars) with `chunkSize = 10` and
`overlap = 2` produces the three chunks starting at offsets `[0, 8, 16]`
with lengths `[10, 10, 10]`; the window that reaches offset 26 ends the
loop, so no trailing 2-character window at offset 24 is produced. -/
theorem c2_amended :
    chunkText "ABCDEFGHIJKLMNOPQRSTUVWXYZ" 10 2 =
      ["ABCDEFGHIJ", "IJKLMNOPQR", "QRSTUVWXYZ"] := by
  decide

end Dukejia

namespace Dukejia

/-- Characters produced by the strip step are kept characters or spaces. -/
theorem strip_mem {keep : Char → Bool} {l : List Char} {c : Char}
    (hc : c ∈ l.map fun d => if keep d then d else ' ') : keep c = true ∨ c = ' ' := by
  rcases List.mem_map.1 hc with ⟨d, _, rfl⟩
  by_cases h : keep d = true
  · left; simp [h]
  · right; simp [h]

/-- Tokens produced by `splitWsGo` are nonempty, whitespace-free, and inherit
any property `P` holding of the non-whitespace input characters. -/
theorem splitWsGo_tokens (P : Char → Prop) :
    ∀ (l acc : List Char), (∀ c ∈ l, jsIsSpace c = false → P c) →
      (∀ c ∈ acc, P c ∧ jsIsSpace c = false) →
      ∀ u ∈ splitWsGo acc l, u ≠ [] ∧ ∀ c ∈ u, P c ∧ jsIsSpace c = false := by
  intro l
  induction l with
  | nil =>
    intro acc _ hacc u hu
    by_cases h : acc = []
    · simp [splitWsGo, h] at hu
    · simp only [splitWsGo, if_neg h, List.mem_singleton] at hu
      subst hu
      refine ⟨by simpa [List.reverse_eq_nil_iff] using h, ?_⟩
      intro c hc
      exact hacc c (List.mem_reverse.1 hc)
  | cons d rest ih =>
    intro acc hl hacc u hu
    have hl' : ∀ c ∈ rest, jsIsSpace c = false → P c :=
      fun c hc => hl c (List.mem_cons_of_mem _ hc)
    simp only [splitWsGo] at hu
    by_cases hd : jsIsSpace d
    · rw [if_pos hd] at hu
      by_cases h : acc = []
      · rw [if_pos h] at hu
        exact ih [] hl' (by simp) u hu
      · rw [if_neg h] at hu
        rcases List.mem_cons.1 hu with rfl | hu'
        · refine ⟨by simpa [List.reverse_eq_nil_iff] using h, ?_⟩
          intro c hc
          exact hacc c (List.mem_reverse.1 hc)
        · exact ih [] hl' (by simp) u hu'
    · rw [if_neg hd] at hu
      refine ih (d :: acc) hl' ?_ u hu
      intro c hc
      rcases List.mem_cons.1 hc with rfl | hc'
      · exact ⟨hl c (by simp) (by simpa using hd), by simpa using hd⟩
      · exact hacc c hc'

/-- Consuming a whitespace-free prefix moves it into the accumulator. -/
theorem splitWsGo_append :
    ∀ (u acc l : List Char), (∀ c ∈ u, jsIsSpace c = false) →
      splitWsGo acc (u ++ l) = splitWsGo (u.reverse ++ acc) l := by
  intro u
  induction u with
  | nil => intro acc l _; simp
  | cons c u' ih =>
    intro acc l hu
    have hc : jsIsSpace c = false := hu c (by simp)
    have h1 : splitWsGo acc ((c :: u') ++ l) = splitWsGo (c :: acc) (u' ++ l) := by
      show splitWsGo acc (c :: (u' ++ l)) = splitWsGo (c :: acc) (u' ++ l)
      simp only [splitWsGo]
      rw [if_neg (by simp [hc])]
    have h2 := ih (c :: acc) l (fun d hd => hu d (by simp [hd]))
    rw [h1, h2]
    congr 1
    rw [List.reverse_cons]
    simp [List.append_assoc]

/-- Splitting the single-space join of nonempty whitespace-free tokens
recovers exactly those tokens. -/
theorem splitWs_joinSp :
    ∀ us : List (List Char),
      (∀ u ∈ us, u ≠ [] ∧ ∀ c ∈ u, jsIsSpace c = false) → splitWs (joinSp us) = us := by
  intro us
  induction us with
  | nil => intro _; rfl
  | cons u us' ih =>
    intro h
    obtain ⟨hne, hu⟩ := h u (by simp)
    cases us' with
    | nil =>
      show splitWs (joinSp [u]) = [u]
      have hju : joinSp [u] = u := rfl
      rw [hju]
      unfold splitWs
      rw [show u = u ++ ([] : List Char) by simp, splitWsGo_append u [] [] hu]
      simp [splitWsGo, List.reverse_eq_nil_iff, hne]
    | cons v vs =>
      show splitWs (u ++ ' ' :: joinSp (v :: vs)) = u :: v :: vs
      unfold splitWs
      rw [splitWsGo_append u [] _ hu]
      simp only [List.append_nil, splitWsGo]
      rw [if_pos (by decide), if_neg (by simpa [List.reverse_eq_nil_iff] using hne)]
      rw [List.reverse_reverse]
      have hrec := ih (fun w hw => h w (List.mem_cons_of_mem _ hw))
      exact congrArg (u :: ·) hrec

/-- Every character of a single-space join is a token character or a space. -/
theorem mem_joinSp :
    ∀ (us : List (List Char)) (c : Char), c ∈ joinSp us → (∃ u ∈ us, c ∈ u) ∨ c = ' ' := by
  intro us
  induction us with
  | nil => intro c hc; simp [joinSp] at hc
  | cons u us' ih =>
    intro c hc
    cases us' with
    | nil => exact Or.inl ⟨u, by simp, by simpa [joinSp] using hc⟩
    | cons v vs =>
      have hj : joinSp (u :: v :: vs) = u ++ ' ' :: joinSp (v :: vs) := rfl
      rw [hj] at hc
      rcases List.mem_append.1 hc with h | h
      · exact Or.inl ⟨u, by simp, h⟩
      · rcases List.mem_cons.1 h with rfl | h'
        · exact Or.inr rfl
        · rcases ih c h' with ⟨w, hw, hcw⟩ | h2
          · exact Or.inl ⟨w, List.mem_cons_of_mem _ hw, hcw⟩
          · exact Or.inr h2

/-- `dropWhile` is the identity when the head does not satisfy the predicate. -/
theorem dropWhile_eq_self_head {p : Char → Bool} :
    ∀ {l : List Char}, (∀ c, l.head? = some c → p c = false) → l.dropWhile p = l := by
  intro l h
  cases l with
  | nil => rfl
  | cons c rest =>
    rw [List.dropWhile_cons, if_neg]
    simp [h c rfl]

/-- The reverse of a nonempty whitespace-free list starts with a
non-whitespace character. -/
theorem reverse_head_nonspace :
    ∀ (u : List Char), u ≠ [] → (∀ c ∈ u, jsIsSpace c = false) →
      ∃ c l', u.reverse = c :: l' ∧ jsIsSpace c = false := by
  intro u
  induction u with
  | nil => intro h; exact absurd rfl h
  | cons c u' ih =>
    intro _ hu
    cases u' with
    | nil => exact ⟨c, [], rfl, hu c (by simp)⟩
    | cons d u'' =>
      obtain ⟨e, l', hrev, he⟩ := ih (by simp) (fun x hx => hu x (List.mem_cons_of_mem _ hx))
      refine ⟨e, l' ++ [c], ?_, he⟩
      rw [List.reverse_cons, hrev]
      rfl

/-- The reverse of the single-space join of nonempty whitespace-free tokens
starts with a non-whitespace character (i.e. the join ends in one). -/
theorem joinSp_reverse_head :
    ∀ us : List (List Char), us ≠ [] →
      (∀ u ∈ us, u ≠ [] ∧ ∀ c ∈ u, jsIsSpace c = false) →
      ∃ c l', (joinSp us).reverse = c :: l' ∧ jsIsSpace c = false := by
  intro us
  induction us with
  | nil => intro h; exact absurd rfl h
  | cons u us' ih =>
    intro _ h
    obtain ⟨hne, hu⟩ := h u (by simp)
    cases us' with
    | nil =>
      obtain ⟨c, l', hrev, hc⟩ := reverse_head_nonspace u hne hu
      exact ⟨c, l', by simpa [joinSp] using hrev, hc⟩
    | cons v vs =>
      obtain ⟨c, l', hrev, hc⟩ := ih (by simp) (fun w hw => h w (List.mem_cons_of_mem _ hw))
      refine ⟨c, (l' ++ [' ']) ++ u.reverse, ?_, hc⟩
      have hj : joinSp (u :: v :: vs) = u ++ ' ' :: joinSp (v :: vs) := rfl
      rw [hj, List.reverse_append, List.reverse_cons, hrev]
      simp [List.append_assoc]

/-- Trimming the single-space join of nonempty whitespace-free tokens is the
identity. -/
theorem jsTrim_joinSp {us : List (List Char)}
    (h : ∀ u ∈ us, u ≠ [] ∧ ∀ c ∈ u, jsIsSpace c = false) :
    jsTrim (joinSp us) = joinSp us := by
  cases us with
  | nil => rfl
  | cons u us' =>
    have h1 : (joinSp (u :: us')).dropWhile jsIsSpace = joinSp (u :: us') := by
      obtain ⟨hne, hu⟩ := h u (by simp)
      apply dropWhile_eq_self_head
      cases u with
      | nil => exact absurd rfl hne
      | cons a u'' =>
        intro c hc
        have ha : (joinSp ((a :: u'') :: us')).head? = some a := by cases us' <;> rfl
        rw [ha] at hc
        cases hc
        exact hu a (by simp)
    have h2 : (joinSp (u :: us')).reverse.dropWhile jsIsSpace = (joinSp (u :: us')).reverse := by
      apply dropWhile_eq_self_head
      intro c hc
      obtain ⟨d, l', hrev, hd⟩ := joinSp_reverse_head (u :: us') (by simp) h
      rw [hrev] at hc
      cases hc
      exact hd
    unfold jsTrim
    rw [h1, h2, List.reverse_reverse]

/-- Characters kept by the server cleaner's allow-list that are not
whitespace are fixed points of `Char.toLower` (no ASCII capital letter
passes the allow-list). -/
theorem toLower_fix {c : Char} (hk : stripServerKeep c = true) (hs : jsIsSpace c = false) :
    Char.toLower c = c := by
  have hs' : ¬(jsIsSpace c = true) := by simp [hs]
  have h1 : ¬(c.toNat ≥ 65 ∧ c.toNat ≤ 90) := by
    simp only [stripServerKeep, Bool.or_eq_true, Bool.and_eq_true, decide_eq_true_eq,
      beq_iff_eq] at hk
    rcases hk with ((((h | h) | h) | h) | h)
    · omega
    · omega
    · omega
    · exact absurd h hs'
    · omega
  have hdef : Char.toLower c =
      if c.toNat ≥ 65 ∧ c.toNat ≤ 90 then Char.ofNat (c.toNat + 32) else c := rfl
  rw [hdef, if_neg h1]

/-- Tokens produced by `cleanTokensWith` are nonempty, consist of kept
non-whitespace characters only, and pass the token filter. -/
theorem cleanTokens_good {keep : Char → Bool} {pred : String → Bool} {s : String} {t : String}
    (ht : t ∈ cleanTokensWith keep pred s) :
    t.toList ≠ [] ∧ ∀ c ∈ t.toList, keep c = true ∧ jsIsSpace c = false := by
  unfold cleanTokensWith at ht
  have ht1 := (List.mem_filter.1 ht).1
  rcases List.mem_map.1 ht1 with ⟨u, hu, rfl⟩
  have hmain := splitWsGo_tokens (fun c => keep c = true)
    ((s.toList.map Char.toLower).map fun c => if keep c then c else ' ') [] ?side (by simp) u hu
  case side =>
    intro c hc hcs
    rcases strip_mem hc with h | h
    · exact h
    · subst h; exact absurd hcs (by decide)
  constructor
  · exact hmain.1
  · intro c hc
    exact hmain.2 c hc

/-- Tokens surviving `cleanTokensWith` pass the token filter. -/
theorem cleanTokens_pred {keep : Char → Bool} {pred : String → Bool} {s t : String}
    (ht : t ∈ cleanTokensWith keep pred s) : pred t = true :=
  (List.mem_filter.1 ht).2

/-- Running the shared cleaner pipeline on a single-space join of nonempty,
allow-listed, whitespace-free tokens tokenizes back to exactly those tokens
and then filters them. -/
theorem cleanTokens_joinTokens {pred : String → Bool} {toks : List String}
    (hall : ∀ w ∈ toks, w.toList ≠ [] ∧
      ∀ c ∈ w.toList, stripServerKeep c = true ∧ jsIsSpace c = false) :
    cleanTokensWith stripServerKeep pred (joinTokens toks) = toks.filter pred := by
  set us := toks.map String.toList with hus
  have hgood : ∀ u ∈ us, u ≠ [] ∧ ∀ c ∈ u, stripServerKeep c = true ∧ jsIsSpace c = false := by
    intro u hu
    rcases List.mem_map.1 hu with ⟨t, ht, rfl⟩
    exact hall t ht
  have hgood' : ∀ u ∈ us, u ≠ [] ∧ ∀ c ∈ u, jsIsSpace c = false :=
    fun u hu => ⟨(hgood u hu).1, fun c hc => ((hgood u hu).2 c hc).2⟩
  have hlow : (joinSp us).map Char.toLower = joinSp us := by
    have h : ∀ c ∈ joinSp us, Char.toLower c = id c := by
      intro c hc
      rcases mem_joinSp us c hc with ⟨u, hu, hcu⟩ | rfl
      · exact toLower_fix ((hgood u hu).2 c hcu).1 ((hgood u hu).2 c hcu).2
      · decide
    rw [List.map_congr_left h, List.map_id]
  have hstrip : (joinSp us).map (fun c => if stripServerKeep c then c else ' ') = joinSp us := by
    have h : ∀ c ∈ joinSp us, (if stripServerKeep c then c else ' ') = id c := by
      intro c hc
      rcases mem_joinSp us c hc with ⟨u, hu, hcu⟩ | rfl
      · exact if_pos ((hgood u hu).2 c hcu).1
      · decide
    rw [List.map_congr_left h, List.map_id]
  have hmkus : us.map String.mk = toks := by
    rw [hus, List.map_map]
    have h : ∀ t ∈ toks, (String.mk ∘ String.toList) t = id t := fun t _ => rfl
    rw [List.map_congr_left h, List.map_id]
  show ((splitWs (((joinSp us).map Char.toLower).map
      fun c => if stripServerKeep c then c else ' ')).map String.mk).filter pred = toks.filter pred
  rw [hlow, hstrip, splitWs_joinSp us hgood', hmkus]

/-- Trimming a single-space join of nonempty whitespace-free tokens is the
identity, at the `String` level. -/
theorem jsTrimS_joinTokens {toks : List String}
    (hall : ∀ w ∈ toks, w.toList ≠ [] ∧ ∀ c ∈ w.toList, jsIsSpace c = false) :
    jsTrimS (joinTokens toks) = joinTokens toks := by
  have hgood' : ∀ u ∈ toks.map String.toList, u ≠ [] ∧ ∀ c ∈ u, jsIsSpace c = false := by
    intro u hu
    rcases List.mem_map.1 hu with ⟨t, ht, rfl⟩
    exact hall t ht
  show String.mk (jsTrim (joinSp (toks.map String.toList))) = joinTokens toks
  rw [jsTrim_joinSp hgood']
  rfl

/-- C7 (amended): the query-side cleaner `cleanForEmbedding` of `server.mjs`
(no degenerate-output fallback) is idempotent: cleaning an already-cleaned
string returns it unchanged. (The indexing-side cleaner with the
degenerate-output fallback is not idempotent; see the counterexample.) -/
theorem c7_amended (x : String) :
    cleanForEmbedding (cleanForEmbedding x) = cleanForEmbedding x := by
  by_cases hx : x = ""
  · subst hx; rfl
  · have hx' : cleanForEmbedding x =
        jsTrimS (joinTokens (cleanTokensWith stripServerKeep (keptToken PROTECTED_TOKENS) x)) := by
      unfold cleanForEmbedding
      rw [if_neg hx]
    set toks := cleanTokensWith stripServerKeep (keptToken PROTECTED_TOKENS) x with htoks
    have hall : ∀ w ∈ toks, w.toList ≠ [] ∧
        ∀ c ∈ w.toList, stripServerKeep c = true ∧ jsIsSpace c = false :=
      fun w hw => cleanTokens_good hw
    have hall' : ∀ w ∈ toks, w.toList ≠ [] ∧ ∀ c ∈ w.toList, jsIsSpace c = false :=
      fun w hw => ⟨(hall w hw).1, fun c hc => ((hall w hw).2 c hc).2⟩
    have hy : jsTrimS (joinTokens toks) = joinTokens toks := jsTrimS_joinTokens hall'
    rw [hx', hy]
    by_cases hempty : joinTokens toks = ""
    · rw [hempty]; rfl
    · unfold cleanForEmbedding
      rw [if_neg hempty]
      rw [cleanTokens_joinTokens hall]
      rw [List.filter_eq_self.mpr (fun t ht => cleanTokens_pred ht)]
      exact hy

/-- C7 (counterexample): the indexing-side cleaner (second `embed.mjs`
variant, with the under-16-characters fallback) is NOT idempotent. On
`"is\ris is\ris is\ris is\ris\n\nis\ris"` every token is a stopword, so the
first cleaning falls back to the whitespace-normalized original
`"isis isis isis isis\n\nisis"` (the `\r` deletions merge tokens); cleaning
that again keeps the merged tokens `isis`, now 20 non-space characters, so
the second pass returns the space-joined `"isis isis isis isis isis"`,
a different string. -/
theorem c7_counterexample :
    cleanForEmbeddingIdx (cleanForEmbeddingIdx "is\ris is\ris is\ris is\ris\n\nis\ris") ≠
      cleanForEmbeddingIdx "is\ris is\ris is\ris is\ris\n\nis\ris" := by
  decide

/-- C6 (counterexample): the protected token `"dy-606+1ct"` does not survive
cleaning: its `+` is outside the cleaner's character allow-list, so the token
is split into `dy-606` and `1ct` before the protected-set lookup, and the
clean output of the stopword sentence "the dy-606+1ct is" contains neither
the token nor even the substring `dy-606+1ct`. -/
theorem c6_counterexample :
    PROTECTED_TOKENS.contains "dy-606+1ct" = true ∧
    cleanForEmbedding "the dy-606+1ct is" = "dy-606 1ct" ∧
    containsSub "dy-606+1ct".toList (cleanForEmbedding "the dy-606+1ct is").toList = false := by
  decide

/-- C6 (amended): a protected token that can survive tokenization — nonempty,
made only of allow-listed non-whitespace characters (lowercase letters,
digits, hyphens, Devanagari) — always appears in the cleaner's kept-token
list when embedded, whitespace-separated, in any sentence of such tokens
(in particular an otherwise all-stopword sentence), regardless of stoplist
membership. -/
theorem c6_amended (t : String) (pre post : List String)
    (ht : PROTECTED_TOKENS.contains t = true)
    (htok : t.toList ≠ [] ∧ ∀ c ∈ t.toList, stripServerKeep c = true ∧ jsIsSpace c = false)
    (hctx : ∀ w ∈ pre ++ post, w.toList ≠ [] ∧
      ∀ c ∈ w.toList, stripServerKeep c = true ∧ jsIsSpace c = false) :
    t ∈ cleanTokensWith stripServerKeep (keptToken PROTECTED_TOKENS)
        (joinTokens (pre ++ [t] ++ post)) := by
  have hall : ∀ w ∈ pre ++ [t] ++ post, w.toList ≠ [] ∧
      ∀ c ∈ w.toList, stripServerKeep c = true ∧ jsIsSpace c = false := by
    intro w hw
    rcases List.mem_append.1 hw with hw1 | hw2
    · rcases List.mem_append.1 hw1 with hw3 | hw4
      · exact hctx w (List.mem_append.2 (Or.inl hw3))
      · rw [List.mem_singleton.1 hw4]; exact htok
    · exact hctx w (List.mem_append.2 (Or.inr hw2))
  rw [cleanTokens_joinTokens hall]
  refine List.mem_filter.2 ⟨?_, ?_⟩
  · simp
  · unfold keptToken
    rw [if_pos ht]

/-- C4 (amended): the Express server's reset operation replaces the
session's `history` by the empty sequence and leaves `createdAt`, `hits`
and `lastSeen` untouched. (The serverless `api/reset.js` variant instead
deletes the whole session record; see the counterexample.) -/
theorem c4_amended (s : Session) :
    (resetSession s).history.length = 0 ∧
    (resetSession s).createdAt = s.createdAt ∧
    (resetSession s).hits = s.hits ∧
    (resetSession s).lastSeen = s.lastSeen :=
  ⟨rfl, rfl, rfl, rfl⟩

/-- C4 (counterexample): the serverless reset (`api/reset.js`,
`SESSIONS.delete(sid)`) applied to an existing session does not keep the
record intact: the entry is removed from the store, and a subsequent
session read reports `hitCount` 0 and `createdAt` null instead of the
original counters (here hits 3, createdAt 5). -/
theorem c4_counterexample :
    serverlessReset [("s1", ⟨[⟨"user", "hi", 1⟩], 5, 6, 3⟩)] "s1" = [] ∧
    serverlessSessionRead
      (serverlessReset [("s1", ⟨[⟨"user", "hi", 1⟩], 5, 6, 3⟩)] "s1") "s1" = (0, none, 0) ∧
    serverlessSessionRead [("s1", ⟨[⟨"user", "hi", 1⟩], 5, 6, 3⟩)] "s1" = (1, some 5, 3) := by
  decide

/-- C8: the reload callback replaces the in-memory vector array iff the
index file exists, parses and contains at least one vector; it then swaps
in exactly the parsed vector list, wholesale; on any failure (missing file,
parse error, zero/absent vectors) the previous array is retained unchanged. -/
theorem c8_reload (disk : DiskIndex) (current : List IndexEntry) :
    (∀ vs, loadVectors disk = .ok vs → reloadCallback disk current = vs ∧ vs ≠ []) ∧
    (∀ e, loadVectors disk = .error e → reloadCallback disk current = current) ∧
    ((∃ vs, loadVectors disk = .ok vs) ↔
      ∃ raw vs, disk = DiskIndex.parsed raw ∧ raw.vectors = some vs ∧ vs ≠ []) := by
  refine ⟨?_, ?_, ?_⟩
  · intro vs hok
    cases disk with
    | missing => simp [loadVectors] at hok
    | unparsable => simp [loadVectors] at hok
    | parsed raw =>
      cases raw with
      | mk ov =>
        cases ov with
        | none => simp [loadVectors] at hok
        | some l =>
          cases l with
          | nil => simp [loadVectors] at hok
          | cons v vsl =>
            simp only [loadVectors, Except.ok.injEq] at hok
            subst hok
            exact ⟨by simp [reloadCallback, loadVectors], by simp⟩
  · intro e herr
    unfold reloadCallback
    rw [herr]
  · constructor
    · rintro ⟨vs, hok⟩
      cases disk with
      | missing => simp [loadVectors] at hok
      | unparsable => simp [loadVectors] at hok
      | parsed raw =>
        cases raw with
        | mk ov =>
          cases ov with
          | none => simp [loadVectors] at hok
          | some l =>
            cases l with
            | nil => simp [loadVectors] at hok
            | cons v vsl =>
              exact ⟨⟨some (v :: vsl)⟩, v :: vsl, rfl, rfl, by simp⟩
    · rintro ⟨raw, vs, rfl, hvec, hne⟩
      cases raw with
      | mk ov =>
        cases hvec
        cases vs with
        | nil => exact absurd rfl hne
        | cons v vsl => exact ⟨v :: vsl, rfl⟩

/-- Witness for C8 at concrete inputs: a parsed one-vector file replaces an
empty in-memory array with exactly that vector; a missing file leaves a
one-vector array unchanged. -/
theorem c8_reload_witness :
    reloadCallback (DiskIndex.parsed ⟨some [⟨0, "a.pdf", "pdf", 0, "t", "t", [1]⟩]⟩) [] =
      [⟨0, "a.pdf", "pdf", 0, "t", "t", [1]⟩] ∧
    reloadCallback DiskIndex.missing [⟨0, "a.pdf", "pdf", 0, "t", "t", [1]⟩] =
      [⟨0, "a.pdf", "pdf", 0, "t", "t", [1]⟩] := by
  refine ⟨?_, ?_⟩
  · exact ((c8_reload (DiskIndex.parsed ⟨some [⟨0, "a.pdf", "pdf", 0, "t", "t", [1]⟩]⟩) []).1
      [⟨0, "a.pdf", "pdf", 0, "t", "t", [1]⟩] rfl).1
  · exact (c8_reload DiskIndex.missing [⟨0, "a.pdf", "pdf", 0, "t", "t", [1]⟩]).2.1
      LoadErr.notFound rfl

/-- Mapping `fun p => i + p.1` over an enumeration-from-`n` yields the
arithmetic range starting at `i + n`. -/
theorem enumFrom_map_add {α : Type} (i : Nat) :
    ∀ (l : List α) (n : Nat),
      (List.enumFrom n l).map (fun p => i + p.1) = List.range' (i + n) l.length := by
  intro l
  induction l with
  | nil => intro n; rfl
  | cons a l ih =>
    intro n
    show (i + n) :: (List.enumFrom (n + 1) l).map (fun p => i + p.1) =
      List.range' (i + n) (l.length + 1)
    rw [ih (n + 1)]
    exact rfl

/-- The ids pushed for one batch are `i, i+1, ..., i + batch.length - 1`
when the provider returned one embedding per request. -/
theorem batchEntries_ids (i : Nat) (batch : List Chunk) (cleaned : List String)
    (emb : List (List ℚ)) (h1 : cleaned.length = batch.length)
    (h2 : emb.length = batch.length) :
    (batchEntries i batch cleaned emb).map (·.id) = List.range' i batch.length := by
  unfold batchEntries
  rw [List.map_map]
  have hfun : ((fun e : IndexEntry => e.id) ∘ fun p : Nat × (Chunk × String × List ℚ) =>
      ({ id := i + p.1, source := p.2.1.source, kind := p.2.1.kind,
         chunk_index := p.2.1.chunk_index, text_original := p.2.1.text_original,
         text_cleaned := p.2.2.1, embedding := p.2.2.2 } : IndexEntry)) =
      fun p : Nat × (Chunk × String × List ℚ) => i + p.1 := funext fun p => rfl
  rw [hfun]
  have henum : (batch.zip (cleaned.zip emb)).enum =
      List.enumFrom 0 (batch.zip (cleaned.zip emb)) := rfl
  rw [henum, enumFrom_map_add]
  have hlen : (batch.zip (cleaned.zip emb)).length = batch.length := by
    rw [List.length_zip, List.length_zip]
    omega
  rw [hlen, Nat.add_zero]

/-- Ids across the whole batched build loop form the contiguous range
starting at `i`. -/
theorem buildLoopGo_ids (provider : List String → List (List ℚ))
    (hp : ∀ reqs, (provider reqs).length = reqs.length) :
    ∀ (fuel : Nat) (chunks : List Chunk) (i : Nat), chunks.length < fuel →
      (buildLoopGo provider fuel chunks i).map (·.id) = List.range' i chunks.length := by
  intro fuel
  induction fuel with
  | zero => intro chunks i h; omega
  | succ fuel ih =>
    intro chunks i h
    cases chunks with
    | nil => rfl
    | cons c cs =>
      show (batchEntries i ((c :: cs).take 64) (((c :: cs).take 64).map cleanedOfChunk)
          (provider (((c :: cs).take 64).map cleanedOfChunk)) ++
          buildLoopGo provider fuel ((c :: cs).drop 64) (i + 64)).map (·.id) = _
      rw [List.map_append]
      rw [batchEntries_ids i _ _ _ (List.length_map _ _)
        ((hp _).trans (List.length_map _ _))]
      rw [ih ((c :: cs).drop 64) (i + 64)
        (by rw [List.length_drop]; simp only [List.length_cons] at h ⊢; omega)]
      rw [List.length_take, List.length_drop]
      by_cases hle : (c :: cs).length ≤ 64
      · have hmin : min 64 (c :: cs).length = (c :: cs).length := by omega
        have hz : (c :: cs).length - 64 = 0 := by omega
        rw [hmin, hz]
        simp
      · have hmin : min 64 (c :: cs).length = 64 := by omega
        rw [hmin]
        have happ := List.range'_append i 64 ((c :: cs).length - 64) 1
        simp only [Nat.one_mul] at happ
        rw [happ]
        congr 1
        omega

/-- C3: after a build in which the embedding provider returns exactly one
embedding per request, in request order, the vectors' `id`s are exactly
`0, 1, ..., n-1` in chunk-production order (and there are as many vectors
as chunks); and after a prune, the renumbered `id`s are again exactly
`0, 1, ..., n-1` over the kept vectors. -/
theorem c3_id_density (provider : List String → List (List ℚ))
    (hp : ∀ reqs, (provider reqs).length = reqs.length)
    (allChunks : List Chunk) (rm : List String) (vectors : List IndexEntry) :
    (buildVectors provider allChunks).map (·.id) = List.range allChunks.length ∧
    (buildVectors provider allChunks).length = allChunks.length ∧
    (pruneVectors rm vectors).map (·.id) = List.range (pruneVectors rm vectors).length := by
  have hbuild : (buildVectors provider allChunks).map (·.id) = List.range allChunks.length := by
    unfold buildVectors
    rw [buildLoopGo_ids provider hp (allChunks.length + 1) allChunks 0 (by omega)]
    rw [List.range'_eq_map_range]
    simp
  refine ⟨hbuild, ?_, ?_⟩
  · have := congrArg List.length hbuild
    rwa [List.length_map, List.length_range] at this
  · unfold pruneVectors
    rw [List.map_map, List.length_map]
    have hfun : ((fun e : IndexEntry => e.id) ∘ fun p : Nat × IndexEntry =>
        { p.2 with id := p.1 }) = (Prod.fst : Nat × IndexEntry → Nat) :=
      funext fun p => rfl
    rw [hfun, List.enum_map_fst, List.enum_length]

/-- Witness for C3: a concrete two-chunk build with a one-embedding-per-
request provider yields ids `[0, 1]`, and pruning a two-vector index down
to one vector renumbers it to id 0. -/
theorem c3_id_density_witness :
    (buildVectors (fun reqs => reqs.map fun _ => ([1] : List ℚ))
        [⟨"a.pdf", "pdf", 0, "alpha text"⟩, ⟨"b.pdf", "pdf", 0, "beta text"⟩]).map (·.id) =
      List.range 2 ∧
    (pruneVectors ["a.pdf"]
        [⟨0, "a.pdf", "pdf", 0, "t", "t", [1]⟩, ⟨1, "b.pdf", "pdf", 0, "u", "u", [2]⟩]).map (·.id) =
      List.range (pruneVectors ["a.pdf"]
        [⟨0, "a.pdf", "pdf", 0, "t", "t", [1]⟩, ⟨1, "b.pdf", "pdf", 0, "u", "u", [2]⟩]).length := by
  have h := c3_id_density (fun reqs => reqs.map fun _ => ([1] : List ℚ))
    (fun reqs => List.length_map _ _)
    [⟨"a.pdf", "pdf", 0, "alpha text"⟩, ⟨"b.pdf", "pdf", 0, "beta text"⟩]
    ["a.pdf"]
    [⟨0, "a.pdf", "pdf", 0, "t", "t", [1]⟩, ⟨1, "b.pdf", "pdf", 0, "u", "u", [2]⟩]
  exact ⟨h.1, h.2.2⟩

end Dukejia

namespace Dukejia

/-- C5: a query request whose resolved question is empty or missing is
rejected with HTTP 400 and does not proceed to retrieval or generation: the
response is the 400 error, the session is untouched and no provider call is
made. The serverless variant likewise rejects an empty trimmed question
when the first-turn blank-greeting exception (`isFirstTurn`) does not
apply. -/
theorem c5_empty_question (cfg : AskConfig) (sim : List ℚ → List ℚ → ℚ)
    (embed : String → Except ProviderErr (List ℚ))
    (generate : String → Except ProviderErr String)
    (vectors : List IndexEntry) (bodyQuestion bodyMessage : Option String)
    (session : Session) (botName : String) (rnd now : Nat)
    (hq : (bodyQuestion.or bodyMessage).getD "" = "")
    (bm2 bq2 : Option String)
    (hq2 : jsTrimS ((bm2.or bq2).getD "") = "") :
    askEndpoint cfg sim embed generate vectors bodyQuestion bodyMessage session botName rnd now =
      { session := session, effects := [],
        response := .badRequest "Missing 'question' (or 'message') string" } ∧
    serverlessAskGate bm2 bq2 false = some (.badRequest "Missing 'message' or 'question'.") := by
  constructor
  · unfold askEndpoint
    simp [hq]
  · unfold serverlessAskGate
    simp only [hq2]
    simp

/-- Witness for C5: a request with neither `question` nor `message` is
answered 400 with no session change and no provider effect; the serverless
gate rejects a whitespace-only message outside the first turn. -/
theorem c5_empty_question_witness :
    askEndpoint {} (fun _ _ => 0) (fun _ => .ok []) (fun _ => .ok "") [] none none
        ⟨[], 0, 0, 1⟩ "Duki" 0 0 =
      { session := ⟨[], 0, 0, 1⟩, effects := [],
        response := .badRequest "Missing 'question' (or 'message') string" } ∧
    serverlessAskGate (some " ") none false =
      some (.badRequest "Missing 'message' or 'question'.") :=
  c5_empty_question {} (fun _ _ => 0) (fun _ => .ok []) (fun _ => .ok "") []
    none none ⟨[], 0, 0, 1⟩ "Duki" 0 0 rfl (some " ") none (by decide)

/-- C1 (amended): when the retrieval stage runs against a NONEMPTY store
and the confidence gate fires (top cosine score below `MIN_OK_SCORE =
0.18`), the request resolves to the low-confidence "be more specific" tip
in the classified language, with an empty citations list, the user and
assistant turns recorded, and no generator call (the only provider effect
is the embedding call). In the scenario with three stored vectors scoring
[0.5, 0.3, 0.1] and `k = 2`, retrieval returns the top two entries in
descending score order. (An EMPTY store is answered earlier with the
"reference data isn't loaded" fallback, not this tip: see the
counterexample.) -/
theorem c1_amended (cfg : AskConfig) (sim : List ℚ → List ℚ → ℚ)
    (embed : String → Except ProviderErr (List ℚ))
    (generate : String → Except ProviderErr String)
    (vectors : List IndexEntry) (q mode : String) (session : Session)
    (botName : String) (now : Nat) (qVec : List ℚ)
    (hv : vectors.isEmpty = false)
    (hemb : embed (cleanedQueryOf q) = .ok qVec)
    (hgate : gateLow (retrieveTopK sim qVec vectors cfg.topK) = true) :
    askRag cfg sim embed generate vectors q mode session botName now =
      { session := { session with history := session.history ++
          [⟨"user", q, now⟩, ⟨"assistant",
            if cfg.pointwiseMode then toPointWise cfg.pointwiseMode (lowConfTip mode)
            else lowConfTip mode, now⟩] },
        effects := [.embedCall (cleanedQueryOf q)],
        response := .jsonOk
          (if cfg.pointwiseMode then toPointWise cfg.pointwiseMode (lowConfTip mode)
           else lowConfTip mode) mode [] } ∧
    retrieveTopK (fun _ e => if e = [1] then 1/2 else if e = [2] then 3/10 else 1/10) []
        [sampleEntry 10 [1], sampleEntry 11 [2], sampleEntry 12 [3]] 2 =
      [(sampleEntry 10 [1], 1/2), (sampleEntry 11 [2], 3/10)] := by
  constructor
  · unfold askRag
    simp only [hv, Bool.false_eq_true, if_false, hemb, hgate, if_true]
  · unfold retrieveTopK
    have hmap : ([sampleEntry 10 [1], sampleEntry 11 [2], sampleEntry 12 [3]].map
        fun v => (v, (fun _ e => if e = [1] then (1 : ℚ)/2 else if e = [2] then 3/10
          else 1/10) ([] : List ℚ) v.embedding)) =
        [(sampleEntry 10 [1], 1/2), (sampleEntry 11 [2], 3/10), (sampleEntry 12 [3], 1/10)] := by
      rfl
    rw [hmap, List.mergeSort_of_sorted (by
      simp only [List.pairwise_cons, List.mem_cons, List.mem_singleton, List.not_mem_nil,
        List.Pairwise.nil, decide_eq_true_eq]
      norm_num)]
    rfl

/-- Witness for C1 at a concrete input: one stored vector scoring 0.1
(below the 0.18 gate) yields the English low-confidence tip with empty
citations and only the embedding effect. -/
theorem c1_amended_witness :
    askRag { pointwiseMode := false } (fun _ _ => (1 : ℚ)/10) (fun _ => .ok [])
        (fun _ => .ok "ans") [sampleEntry 0 [1]] "q" "english" ⟨[], 0, 0, 1⟩ "Duki" 7 =
      { session := ⟨[⟨"user", "q", 7⟩, ⟨"assistant", lowConfTip "english", 7⟩], 0, 0, 1⟩,
        effects := [.embedCall (cleanedQueryOf "q")],
        response := .jsonOk (lowConfTip "english") "english" [] } := by
  have hr : retrieveTopK (fun _ _ => (1 : ℚ)/10) [] [sampleEntry 0 [1]] 6 =
      [(sampleEntry 0 [1], 1/10)] := by
    unfold retrieveTopK
    rw [List.mergeSort_of_sorted (by simp)]
    rfl
  have h := (c1_amended { pointwiseMode := false } (fun _ _ => (1 : ℚ)/10) (fun _ => .ok [])
    (fun _ => .ok "ans") [sampleEntry 0 [1]] "q" "english" ⟨[], 0, 0, 1⟩ "Duki" 7 []
    (by decide) rfl (by
      rw [hr]
      simp only [gateLow, MIN_OK_SCORE, decide_eq_true_eq]
      norm_num)).1
  exact h

/-- C1 (counterexample): with an EMPTY vector store the query operation
does not return the low-confidence "be more specific" tip: it answers with
the distinct "reference data isn't loaded yet" fallback (evaluated here
with `POINTWISE_MODE=false`, a legitimate configuration, so both messages
appear verbatim; they differ). -/
theorem c1_counterexample :
    (askEndpoint { pointwiseMode := false } (fun _ _ => 0) (fun _ => .ok [])
        (fun _ => .ok "answer") [] (some "what is dy-606") none ⟨[], 0, 0, 1⟩
        "Duki" 0 7).response =
      .jsonOk (notReadyMsg "english") "english" [] ∧
    notReadyMsg "english" ≠ lowConfTip "english" := by
  constructor
  · decide
  · decide

/-- The pairwise-descending order of the retrieval result. -/
theorem retrieveTopK_sorted (sim : List ℚ → List ℚ → ℚ) (qVec : List ℚ)
    (vectors : List IndexEntry) (k : Nat) :
    List.Pairwise (fun a b : IndexEntry × ℚ => b.2 ≤ a.2)
      (retrieveTopK sim qVec vectors k) := by
  have hps := @List.sorted_mergeSort (IndexEntry × ℚ)
    (fun a b => decide (b.2 ≤ a.2))
    (fun a b c hab hbc => by
      simp only [decide_eq_true_eq] at hab hbc ⊢
      exact le_trans hbc hab)
    (fun a b => by
      rcases le_total a.2 b.2 with h | h <;> simp [h])
    (vectors.map fun v => (v, sim qVec v.embedding))
  unfold retrieveTopK
  have hsub := List.Pairwise.sublist (List.take_sublist k
    ((vectors.map fun v => (v, sim qVec v.embedding)).mergeSort
      fun a b => decide (b.2 ≤ a.2))) hps
  exact List.Pairwise.imp (fun h => of_decide_eq_true h) hsub

/-- An enumeration's second components map back to the list. -/
theorem enum_map_snd_comp {α β : Type} (f : α → β) (l : List α) :
    (l.enum.map fun p => f p.2) = l.map f := by
  have h : (l.enum.map fun p => f p.2) = (l.enum.map Prod.snd).map f := by
    rw [List.map_map]; rfl
  rw [h, List.enum_map_snd]

/-- C9: a response produced via retrieval (the generator succeeded) carries
citations derived positionally from the retrieval result: element `i` is
`{ idx := i + 1, score := scored[i].score }` — at most `TOP_K` entries, the
`i`-th citation's index is `i + 1` (the ordinal tag of the `i`-th forwarded
context block), its score is that block's similarity score, and the scores
are in descending order. -/
theorem c9_citations (cfg : AskConfig) (sim : List ℚ → List ℚ → ℚ)
    (embed : String → Except ProviderErr (List ℚ))
    (generate : String → Except ProviderErr String)
    (vectors : List IndexEntry) (q mode : String) (session : Session)
    (botName : String) (now : Nat) (qVec : List ℚ) (text : String)
    (hv : vectors.isEmpty = false)
    (hemb : embed (cleanedQueryOf q) = .ok qVec)
    (hgate : gateLow (retrieveTopK sim qVec vectors cfg.topK) = false)
    (hgen : generate (promptOf botName mode q
      (contextBlocksOf (retrieveTopK sim qVec vectors cfg.topK))) = .ok text) :
    (askRag cfg sim embed generate vectors q mode session botName now).response =
      .jsonOk (if cfg.pointwiseMode then toPointWise cfg.pointwiseMode text else text) mode
        ((retrieveTopK sim qVec vectors cfg.topK).enum.map fun p =>
          (⟨p.1 + 1, p.2.2⟩ : Citation)) ∧
    ((retrieveTopK sim qVec vectors cfg.topK).enum.map fun p =>
      (⟨p.1 + 1, p.2.2⟩ : Citation)).length ≤ cfg.topK ∧
    (((retrieveTopK sim qVec vectors cfg.topK).enum.map fun p =>
      (⟨p.1 + 1, p.2.2⟩ : Citation)).map Citation.idx) =
      List.range' 1 (retrieveTopK sim qVec vectors cfg.topK).length ∧
    (((retrieveTopK sim qVec vectors cfg.topK).enum.map fun p =>
      (⟨p.1 + 1, p.2.2⟩ : Citation)).map Citation.score) =
      (retrieveTopK sim qVec vectors cfg.topK).map (fun s => s.2) ∧
    List.Pairwise (fun a b : Citation => b.score ≤ a.score)
      ((retrieveTopK sim qVec vectors cfg.topK).enum.map fun p =>
        (⟨p.1 + 1, p.2.2⟩ : Citation)) := by
  refine ⟨?_, ?_, ?_, ?_, ?_⟩
  · unfold askRag
    simp only [hv, Bool.false_eq_true, if_false, hemb, hgate, if_false, hgen]
  · rw [List.length_map, List.enum_length]
    exact List.length_take_le _ _
  · rw [List.map_map]
    have hfun : (Citation.idx ∘ fun p : Nat × (IndexEntry × ℚ) =>
        (⟨p.1 + 1, p.2.2⟩ : Citation)) = fun p : Nat × (IndexEntry × ℚ) => 1 + p.1 :=
      funext fun p => Nat.add_comm p.1 1
    rw [hfun]
    have henum : (retrieveTopK sim qVec vectors cfg.topK).enum =
        List.enumFrom 0 (retrieveTopK sim qVec vectors cfg.topK) := rfl
    rw [henum, enumFrom_map_add]
  · rw [List.map_map]
    have hfun2 : (Citation.score ∘ fun p : Nat × (IndexEntry × ℚ) =>
        (⟨p.1 + 1, p.2.2⟩ : Citation)) = fun p : Nat × (IndexEntry × ℚ) => p.2.2 :=
      funext fun p => rfl
    rw [hfun2]
    exact enum_map_snd_comp (fun s : IndexEntry × ℚ => s.2) _
  · have hscores : (((retrieveTopK sim qVec vectors cfg.topK).enum.map fun p =>
        (⟨p.1 + 1, p.2.2⟩ : Citation)).map Citation.score) =
        (retrieveTopK sim qVec vectors cfg.topK).map (fun s => s.2) := by
      rw [List.map_map]
      have hfun2 : (Citation.score ∘ fun p : Nat × (IndexEntry × ℚ) =>
          (⟨p.1 + 1, p.2.2⟩ : Citation)) = fun p : Nat × (IndexEntry × ℚ) => p.2.2 :=
        funext fun p => rfl
      rw [hfun2]
      exact enum_map_snd_comp (fun s : IndexEntry × ℚ => s.2) _
    have hp := retrieveTopK_sorted sim qVec vectors cfg.topK
    have hp2 : List.Pairwise (fun a b : ℚ => b ≤ a)
        ((retrieveTopK sim qVec vectors cfg.topK).map (fun s => s.2)) :=
      List.pairwise_map.2 hp
    rw [← hscores] at hp2
    exact List.pairwise_map.1 hp2

/-- Witness for C9 at a concrete input: a single stored vector scoring 1
yields the answer with citations `[{ idx := 1, score := 1 }]`. -/
theorem c9_citations_witness :
    (askRag { pointwiseMode := false } (fun _ _ => (1 : ℚ)) (fun _ => .ok [])
        (fun _ => .ok "ans") [sampleEntry 0 [1]] "q" "english" ⟨[], 0, 0, 1⟩ "Duki" 7).response =
      .jsonOk "ans" "english"
        ((retrieveTopK (fun _ _ => (1 : ℚ)) [] [sampleEntry 0 [1]] 6).enum.map fun p =>
          (⟨p.1 + 1, p.2.2⟩ : Citation)) ∧
    ((retrieveTopK (fun _ _ => (1 : ℚ)) [] [sampleEntry 0 [1]] 6).enum.map fun p =>
      (⟨p.1 + 1, p.2.2⟩ : Citation)) = [⟨1, 1⟩] := by
  have hr : retrieveTopK (fun _ _ => (1 : ℚ)) [] [sampleEntry 0 [1]] 6 =
      [(sampleEntry 0 [1], 1)] := by
    unfold retrieveTopK
    rw [List.mergeSort_of_sorted (by simp)]
    rfl
  have h := c9_citations { pointwiseMode := false } (fun _ _ => (1 : ℚ)) (fun _ => .ok [])
    (fun _ => .ok "ans") [sampleEntry 0 [1]] "q" "english" ⟨[], 0, 0, 1⟩ "Duki" 7 [] "ans"
    (by decide) rfl (by
      rw [hr]
      simp only [gateLow, MIN_OK_SCORE, decide_eq_false_iff_not]
      norm_num) rfl
  refine ⟨h.1, ?_⟩
  rw [hr]
  rfl

/-- C10: when the generator call fails after retrieval, the error response
(the provider's status or 500, its message or the fallback text) is
returned with the session history already extended by exactly the user's
turn and no assistant turn — session state is not rolled back, so the
history ends with an unanswered user turn; both provider calls are on
record. -/
theorem c10_generation_failure (cfg : AskConfig) (sim : List ℚ → List ℚ → ℚ)
    (embed : String → Except ProviderErr (List ℚ))
    (generate : String → Except ProviderErr String)
    (vectors : List IndexEntry) (q mode : String) (session : Session)
    (botName : String) (now : Nat) (qVec : List ℚ) (e : ProviderErr)
    (hv : vectors.isEmpty = false)
    (hemb : embed (cleanedQueryOf q) = .ok qVec)
    (hgate : gateLow (retrieveTopK sim qVec vectors cfg.topK) = false)
    (hgen : generate (promptOf botName mode q
      (contextBlocksOf (retrieveTopK sim qVec vectors cfg.topK))) = .error e) :
    askRag cfg sim embed generate vectors q mode session botName now =
      { session := { session with history := session.history ++ [⟨"user", q, now⟩] },
        effects := [.embedCall (cleanedQueryOf q),
          .generateCall (promptOf botName mode q
            (contextBlocksOf (retrieveTopK sim qVec vectors cfg.topK)))],
        response := catchResponse e } := by
  unfold askRag
  simp only [hv, Bool.false_eq_true, if_false, hemb, hgate, hgen]

/-- Witness for C10 at a concrete input: a failing generator (status 503)
leaves exactly the unanswered user turn in the session and reports the
provider error. -/
theorem c10_generation_failure_witness :
    askRag { pointwiseMode := false } (fun _ _ => (1 : ℚ)) (fun _ => .ok [])
        (fun _ => .error ⟨some 503, some "overloaded", none⟩)
        [sampleEntry 0 [1]] "q" "english" ⟨[], 0, 0, 1⟩ "Duki" 7 =
      { session := ⟨[⟨"user", "q", 7⟩], 0, 0, 1⟩,
        effects := [.embedCall (cleanedQueryOf "q"),
          .generateCall (promptOf "Duki" "english" "q"
            (contextBlocksOf (retrieveTopK (fun _ _ => (1 : ℚ)) [] [sampleEntry 0 [1]] 6)))],
        response := .jsonErr 503 "overloaded" } := by
  have hr : retrieveTopK (fun _ _ => (1 : ℚ)) [] [sampleEntry 0 [1]] 6 =
      [(sampleEntry 0 [1], 1)] := by
    unfold retrieveTopK
    rw [List.mergeSort_of_sorted (by simp)]
    rfl
  exact c10_generation_failure { pointwiseMode := false } (fun _ _ => (1 : ℚ)) (fun _ => .ok [])
    (fun _ => .error ⟨some 503, some "overloaded", none⟩) [sampleEntry 0 [1]] "q" "english"
    ⟨[], 0, 0, 1⟩ "Duki" 7 [] ⟨some 503, some "overloaded", none⟩
    (by decide) rfl (by
      rw [hr]
      simp only [gateLow, MIN_OK_SCORE, decide_eq_false_iff_not]
      norm_num) rfl

end Dukejia





namespace Dukejia

/-- Witness for C6 at a concrete input: the protected token `"dukejia"`
survives cleaning of the all-stopword sentence "the dukejia is". -/
theorem c6_amended_witness :
    "dukejia" ∈ cleanTokensWith stripServerKeep (keptToken PROTECTED_TOKENS)
        (joinTokens (["the"] ++ ["dukejia"] ++ ["is"])) :=
  c6_amended "dukejia" ["the"] ["is"] (by decide) (by decide) (by decide)

/-- Witness for C7's amended idempotence at a concrete input. -/
theorem c7_amended_witness :
    cleanForEmbedding (cleanForEmbedding "What are the Dukejia DY-606 key features?") =
      cleanForEmbedding "What are the Dukejia DY-606 key features?" :=
  c7_amended "What are the Dukejia DY-606 key features?"

end Dukejia
